import Mathlib

/-
Verification of the Huge-Page-Aware Allocator router
(tcmalloc/huge_page_aware_allocator.h).

The development shallowly embeds the router logic of
HugePageAwareAllocator: size-class dispatch (LockAndAlloc), the
AllocLarge routing decision, AllocRawHugepages / AllocAndContribute
donation bookkeeping, Delete / DeleteFromHugepage / ReleaseHugepage,
NewAligned, and ReleaseAtLeastNPages.

Components that live outside the embedded header (HugePageFiller,
HugeCache, HugeRegionSet, LifetimeBasedAllocator) are modelled from the
specification: the filler is a pool of per-huge-page trackers whose
TryGet / Contribute / Put surface is reflected by used-page counting
(Put returns the tracker exactly when it becomes fully empty), and the
cache is reflected as the log of ranges released to it.  Machine
integers (Length, HugeLength) are embedded as Nat, with the two
signed-underflow-sensitive counters donated_huge_pages_ and
abandoned_pages_ embedded as Int so that non-negativity is a theorem
rather than a representation artifact.
-/

namespace HPAAProof

/-- Pages per huge page: 2 MiB huge pages over 8 KiB pages, as in the
specification (K = 256). -/
def kPagesPerHugePage : Nat := 256

/-- Bytes per small page (8 KiB). -/
def kPageSize : Nat := 8192

/-- Bytes per huge page. -/
def kHugePageSize : Nat := kPagesPerHugePage * kPageSize

/-- HLFromBytes: bytes to huge pages, rounding down. -/
def hlFromBytes (bytes : Nat) : Nat := bytes / kHugePageSize

/-- HugeLength::in_pages(). -/
def hlInPages (hl : Nat) : Nat := hl * kPagesPerHugePage

/-- HLFromPages: pages to huge pages, rounding up. -/
def hlFromPages (n : Nat) : Nat :=
  (n + kPagesPerHugePage - 1) / kPagesPerHugePage

/-! ## Size-class dispatch (LockAndAlloc) -/

/-- The three allocation paths selected by LockAndAlloc. -/
inductive SizeClass where
  | small
  | large
  | enormous
  deriving DecidableEq, Repr

/-- Size-class branch of LockAndAlloc: n below half a huge page goes to
AllocSmall, up to a huge region to AllocLarge, beyond to AllocEnormous.
The huge-region size in pages is a configuration parameter (HugeRegion
is outside the embedded header). -/
def lockAndAllocClass (regionSizeInPages n : Nat) : SizeClass :=
  if n ≤ kPagesPerHugePage / 2 then .small
  else if n ≤ regionSizeInPages then .large
  else .enormous

/-! ## AllocLarge routing -/

/-- Outcomes of AllocLarge, in source order. -/
inductive LargeRoute where
  | rawExact          -- exact huge-page multiple: AllocRawHugepages directly
  | fromFiller        -- filler_.TryGet hit
  | fromLifetime      -- lifetime_allocator_.MaybeGet hit
  | fromRegion        -- regions_.MaybeGet hit
  | rawWithLifetime   -- AllocRawHugepagesAndMaybeTrackLifetime
  | fromNewRegion     -- AddRegion succeeded; served from the new region
  deriving DecidableEq, Repr

/-- The 64 MiB threshold of AllocLarge, expressed in pages. -/
def donatedThresholdPages : Nat := hlInPages (hlFromBytes (64 * 1024 * 1024))

/-- Routing decision of AllocLarge.  The filler, lifetime allocator and
region set live outside the embedded header; whether each would serve
the request is supplied as an oracle bit (fillerHit, lifetimeHit,
regionsHit), as is the success of AddRegion.  slack, small and
abandonedPages are the counter values read by the source. -/
def allocLargeRoute (n : Nat) (fillerHit lifetimeHit regionsHit : Bool)
    (useHugeRegionMoreOften : Bool) (abandonedPages slack small : Nat)
    (addRegionOk : Bool) : LargeRoute :=
  if hlInPages (hlFromPages n) = n then .rawExact
  else if n < kPagesPerHugePage && fillerHit then .fromFiller
  else if lifetimeHit then .fromLifetime
  else if regionsHit then .fromRegion
  else
    let donated := if useHugeRegionMoreOften then abandonedPages + slack
                   else slack
    if donated < donatedThresholdPages then .rawWithLifetime
    else if slack < small && !useHugeRegionMoreOften then .rawWithLifetime
    else if !addRegionOk then .rawWithLifetime
    else .fromNewRegion

/-! ## NewAligned routing -/

/-- Outcomes of NewAligned. -/
inductive AlignedRoute where
  | viaNew            -- align at most one page: forwards to New
  | rawHugepages      -- AllocRawHugepages under the lock
  | checkFail         -- CHECK_CONDITION(align <= kPagesPerHugePage) fires
  deriving DecidableEq, Repr

/-- Routing of NewAligned on the alignment argument. -/
def newAlignedRoute (align : Nat) : AlignedRoute :=
  if align ≤ 1 then .viaNew
  else if align ≤ kPagesPerHugePage then .rawHugepages
  else .checkFail

/-! ## State machine: trackers, spans, New/Delete

The machine reflects the router's bookkeeping over sequences of New and
Delete calls.  Address arithmetic happens at huge-page granularity:
every allocation draws fresh huge pages, numbered by a counter. -/

/-- Modelled from the spec: PageTracker is the per-huge-page metadata of
the HugePageFiller (the filler itself is outside the embedded header).
usedPages reflects the filler's used-page count for the huge page;
the donated/abandoned/released fields mirror the source accessors
was_donated(), abandoned(), abandoned_count(), released(). -/
structure Tracker where
  hp : Nat
  usedPages : Nat
  wasDonated : Bool
  abandoned : Bool
  abandonedCount : Nat
  released : Bool
  deriving DecidableEq, Repr

/-- Provenance of a live span, fixed at allocation. -/
inductive SpanKind where
  | filler          -- packed onto a single tracked huge page
  | directExact     -- straight from the HugeCache, slack = 0
  | directDonated   -- straight from the HugeCache, tail donated to filler
  deriving DecidableEq, Repr

/-- A live span: identity, first huge page, length in pages, provenance. -/
structure SpanRec where
  sid : Nat
  firstHp : Nat
  n : Nat
  kind : SpanKind
  deriving DecidableEq, Repr

/-- Span::donated(): set exactly by the slack branch of AllocRawHugepages. -/
def SpanRec.donated (s : SpanRec) : Bool := s.kind == .directDonated

/-- Number of huge pages covered by a span. -/
def spanHl (s : SpanRec) : Nat := hlFromPages s.n

/-- Last huge page covered by a span. -/
def tailHp (s : SpanRec) : Nat := s.firstHp + spanHl s - 1

/-- Slack: pages of the covering huge-page range not requested. -/
def spanSlack (s : SpanRec) : Nat := hlInPages (spanHl s) - s.n

/-- Ranges handed back to the HugeCache by the deallocation paths. -/
inductive CacheEvent where
  | releaseBacked (startHp hl : Nat)   -- cache_.Release
  | releaseUnbacked (hp : Nat)         -- cache_.ReleaseUnbacked
  deriving DecidableEq, Repr

/-- Router state: the tracker map (keyed by huge page), live spans, the
two donation counters, fresh-address counters, and the log of ranges
released to the HugeCache. -/
structure HPAA where
  nextHp : Nat
  nextSid : Nat
  trackers : List Tracker
  spans : List SpanRec
  donatedHugePages : Int
  abandonedPages : Int
  events : List CacheEvent
  deriving DecidableEq, Repr

def initState : HPAA :=
  { nextHp := 0, nextSid := 0, trackers := [], spans := [],
    donatedHugePages := 0, abandonedPages := 0, events := [] }

/-- PageMap tracker lookup (GetTracker). -/
def findTracker (ts : List Tracker) (h : Nat) : Option Tracker :=
  ts.find? (fun t => t.hp == h)

/-- Remove the tracker slot for huge page h (SetTracker(h, nullptr)). -/
def eraseTracker (ts : List Tracker) (h : Nat) : List Tracker :=
  ts.filter (fun t => t.hp != h)

/-- Replace the tracker at huge page h. -/
def setTracker (ts : List Tracker) (h : Nat) (t : Tracker) : List Tracker :=
  t :: eraseTracker ts h

/-- AllocAndContribute: install a fresh tracker on huge page p, allocate
the first n pages of it, and contribute the rest to the filler.  When
donated, the source records set_abandoned_count(n).  Returns the
contributed tracker. -/
def allocAndContribute (p n : Nat) (donated : Bool) : Tracker :=
  { hp := p, usedPages := n, wasDonated := donated, abandoned := false,
    abandonedCount := if donated then n else 0, released := false }

/-- AllocRawHugepages: draw ceil(n/K) fresh huge pages; with zero slack
finalize directly, otherwise donate the tail huge page to the filler
via AllocAndContribute(last, K - slack, donated = true) and increment
donated_huge_pages_. -/
def allocRawHugepages (st : HPAA) (n : Nat) : Option HPAA :=
  if n = 0 then none else
  let hl := hlFromPages n
  let first := st.nextHp
  let last := first + hl - 1
  let slack := hlInPages hl - n
  if slack = 0 then
    some { st with
      nextHp := st.nextHp + hl,
      nextSid := st.nextSid + 1,
      spans := { sid := st.nextSid, firstHp := first, n := n,
                 kind := .directExact } :: st.spans }
  else
    let here := kPagesPerHugePage - slack
    some { st with
      nextHp := st.nextHp + hl,
      nextSid := st.nextSid + 1,
      trackers := allocAndContribute last here true :: st.trackers,
      donatedHugePages := st.donatedHugePages + 1,
      spans := { sid := st.nextSid, firstHp := first, n := n,
                 kind := .directDonated } :: st.spans }

/-- AllocEnormous forwards to AllocRawHugepages. -/
def allocEnormous (st : HPAA) (n : Nat) : Option HPAA :=
  allocRawHugepages st n

/-- Filler-served allocation (AllocSmall hit, or the AllocLarge filler
path for n below a huge page).  Modelled from the spec: TryGet picks a
tracker with a sufficient free run; the chosen huge page is an oracle
argument, guarded by the free-space bound. -/
def allocFromFiller (st : HPAA) (h n : Nat) : Option HPAA :=
  if n = 0 ∨ kPagesPerHugePage ≤ n then none else
  match findTracker st.trackers h with
  | none => none
  | some t =>
    if t.usedPages + n ≤ kPagesPerHugePage then
      some { st with
        nextSid := st.nextSid + 1,
        trackers := setTracker st.trackers h
          { t with usedPages := t.usedPages + n },
        spans := { sid := st.nextSid, firstHp := h, n := n,
                   kind := .filler } :: st.spans }
    else none

/-- RefillFiller: get one huge page from the cache and install a fresh
non-donated tracker via AllocAndContribute(p, n, donated = false). -/
def refillFiller (st : HPAA) (n : Nat) : Option HPAA :=
  if n = 0 ∨ kPagesPerHugePage / 2 < n then none else
  some { st with
    nextHp := st.nextHp + 1,
    nextSid := st.nextSid + 1,
    trackers := allocAndContribute st.nextHp n false :: st.trackers,
    spans := { sid := st.nextSid, firstHp := st.nextHp, n := n,
               kind := .filler } :: st.spans }

/-- ReleaseHugepage: the tracker is fully empty; clear its PageMap slot,
return the huge page to the cache (unbacked when the tracker was in the
released state, backed otherwise) and destroy the tracker object. -/
def releaseHugepage (st : HPAA) (pt : Tracker) : HPAA :=
  { st with
    trackers := eraseTracker st.trackers pt.hp,
    events := (if pt.released then CacheEvent.releaseUnbacked pt.hp
               else CacheEvent.releaseBacked pt.hp 1) :: st.events }

/-- DeleteFromHugepage: return n pages of huge page pt.hp to the filler.
Put empties the tracker iff its used count reaches zero (modelled from
the spec).  A non-emptying put of a donating allocation abandons the
tracker; an emptying put settles the donation counters and releases the
huge page. -/
def deleteFromHugepage (st : HPAA) (pt : Tracker) (n : Nat)
    (mightAbandon : Bool) : HPAA :=
  if pt.usedPages - n ≠ 0 then
    -- filler_.Put returned nullptr: the tracker stays in the filler.
    if mightAbandon then
      { st with
        trackers := setTracker st.trackers pt.hp
          { pt with usedPages := pt.usedPages - n, abandoned := true },
        abandonedPages := st.abandonedPages + pt.abandonedCount }
    else
      { st with
        trackers := setTracker st.trackers pt.hp
          { pt with usedPages := pt.usedPages - n } }
  else
    let st1 :=
      if pt.wasDonated then
        { st with
          donatedHugePages := st.donatedHugePages - 1,
          abandonedPages :=
            if pt.abandoned then st.abandonedPages - pt.abandonedCount
            else st.abandonedPages }
      else st
    releaseHugepage st1 { pt with usedPages := 0 }

/-- Delete: recover provenance through the tracker map exactly as the
source does.  Returns none when the span id is dead, or at the
null-tracker dereference the safety claim rules out.  The direct-cache
branch is written with the state updates flattened; the released case
performs ReleaseHugepage on the tail (tracker removed, tail returned
unbacked) before the shortened backed range goes to the cache. -/
def deleteSpan (st : HPAA) (sid : Nat) : Option HPAA :=
  match st.spans.find? (fun s => s.sid == sid) with
  | none => none
  | some s =>
    let ss := st.spans.filter (fun x => x.sid != sid)
    match findTracker st.trackers s.firstHp with
    | some pt =>
      -- a) packed by the filler onto a single huge page
      some (deleteFromHugepage { st with spans := ss } pt s.n s.donated)
    | none =>
      -- b)/c) regions are not modelled; fall through to the HugeCache path
      let hl := hlFromPages s.n
      let slack := hlInPages hl - s.n
      if slack = 0 then
        some { st with
          spans := ss,
          events := CacheEvent.releaseBacked s.firstHp hl :: st.events }
      else
        let last := s.firstHp + hl - 1
        match findTracker st.trackers last with
        | none => none   -- null dereference: proven unreachable
        | some pt =>
          let virtLen := kPagesPerHugePage - slack
          if pt.usedPages - virtLen ≠ 0 then
            -- the tail stayed partially used: shorten the range,
            -- account the abandoned pages
            some { st with
              spans := ss,
              trackers := setTracker st.trackers last
                { pt with
                  usedPages := pt.usedPages - virtLen,
                  abandoned := true },
              abandonedPages := st.abandonedPages + pt.abandonedCount,
              events := CacheEvent.releaseBacked s.firstHp (hl - 1)
                :: st.events }
          else if pt.released then
            -- split the tail off and release it unbacked
            some { st with
              spans := ss,
              trackers := eraseTracker st.trackers last,
              donatedHugePages := st.donatedHugePages - 1,
              events := CacheEvent.releaseBacked s.firstHp (hl - 1)
                :: CacheEvent.releaseUnbacked pt.hp :: st.events }
          else
            -- destroy the tracker object, keep the tail in the range
            some { st with
              spans := ss,
              trackers := eraseTracker st.trackers last,
              donatedHugePages := st.donatedHugePages - 1,
              events := CacheEvent.releaseBacked s.firstHp hl :: st.events }

/-- New/Delete operations driving the machine.  Filler choice is the
oracle argument of allocFromFiller. -/
inductive Op where
  | allocFiller (h n : Nat)
  | allocRefill (n : Nat)
  | allocRaw (n : Nat)
  | delete (sid : Nat)
  deriving DecidableEq, Repr

def step (st : HPAA) (op : Op) : Option HPAA :=
  match op with
  | .allocFiller h n => allocFromFiller st h n
  | .allocRefill n => refillFiller st n
  | .allocRaw n => allocRawHugepages st n
  | .delete sid => deleteSpan st sid

def runFrom (st : HPAA) : List Op → Option HPAA
  | [] => some st
  | op :: ops =>
    match step st op with
    | none => none
    | some st1 => runFrom st1 ops

def run (ops : List Op) : Option HPAA :=
  runFrom initState ops

/-! ## Accounting summaries -/

/-- Pages a live span occupies on the filler tracker of huge page h:
a filler span occupies its own pages there; a donated direct span
occupies the non-slack head of its tail huge page (the virtual
allocation of AllocRawHugepages); an exact direct span touches no
tracker. -/
def contrib (s : SpanRec) (h : Nat) : Nat :=
  match s.kind with
  | .filler => if s.firstHp = h then s.n else 0
  | .directExact => 0
  | .directDonated =>
    if tailHp s = h then kPagesPerHugePage - spanSlack s else 0

/-- Filler used-page count of huge page h implied by the live spans. -/
def usedSum (ss : List SpanRec) (h : Nat) : Nat :=
  (ss.map (fun s => contrib s h)).sum

/-- Number of donated trackers, as an integer. -/
def donatedCount (ts : List Tracker) : Int :=
  (ts.map (fun t => if t.wasDonated then (1 : Int) else 0)).sum

/-- Sum of abandoned counts over abandoned trackers, as an integer. -/
def abandonedSum (ts : List Tracker) : Int :=
  (ts.map (fun t => if t.abandoned then (t.abandonedCount : Int) else 0)).sum

/-! ## ReleaseAtLeastNPages -/

/-- Skip-interval configuration passed to the filler's subrelease
(durations embedded as Nat ticks). -/
structure SkipSubreleaseIntervals where
  peakInterval : Nat
  shortInterval : Nat
  longInterval : Nat
  deriving DecidableEq, Repr

/-- Runtime parameters read by ReleaseAtLeastNPages. -/
structure ReleaseConfig where
  hpaaSubrelease : Bool
  useHugeRegionMoreOften : Bool
  skipIntervals : SkipSubreleaseIntervals
  releasePartialAllocPages : Bool
  deriving DecidableEq, Repr

/-- Modelled from the spec: results of the three subordinate release
operations, which live outside the embedded header.
cacheReleaseHugePages reflects HugeCache::ReleaseCachedPages (huge
pages in, huge pages out), fillerReleasePages reflects
HugePageFiller::ReleasePages, regionsReleasePages reflects
HugeRegionSet::ReleasePages. -/
structure ReleaseOracle where
  cacheReleaseHugePages : Nat → Nat
  fillerReleasePages : Nat → SkipSubreleaseIntervals → Bool → Bool → Nat
  regionsReleasePages : Nat

/-- The subordinate calls issued by ReleaseAtLeastNPages, in order. -/
inductive ReleaseStep where
  | cache (requestHp gotHp : Nat)
  | filler (request : Nat) (intervals : SkipSubreleaseIntervals)
      (rpap : Bool) (hitLimit : Bool) (got : Nat)
  | regions (got : Nat)
  deriving DecidableEq, Repr

structure ReleaseOutcome where
  released : Nat
  steps : List ReleaseStep
  recorded : Nat × Nat   -- info_.RecordRelease(num_pages, released)
  deriving DecidableEq, Repr

/-- ReleaseAtLeastNPages: cache first; then the filler's subrelease,
only under hpaa_subrelease and only if still short of the target; then
the regions, only under use_huge_region_more_often; finally record. -/
def releaseAtLeastNPages (cfg : ReleaseConfig) (o : ReleaseOracle)
    (numPages : Nat) : ReleaseOutcome :=
  let reqHp := hlFromPages numPages
  let gotHp := o.cacheReleaseHugePages reqHp
  let r1 := hlInPages gotHp
  let s1 : List ReleaseStep := [.cache reqHp gotHp]
  let (r2, s2) :=
    if cfg.hpaaSubrelease then
      if r1 < numPages then
        let f := o.fillerReleasePages (numPages - r1) cfg.skipIntervals
          cfg.releasePartialAllocPages false
        (r1 + f, s1 ++ [.filler (numPages - r1) cfg.skipIntervals
          cfg.releasePartialAllocPages false f])
      else (r1, s1)
    else (r1, s1)
  let (r3, s3) :=
    if cfg.useHugeRegionMoreOften then
      (r2 + o.regionsReleasePages, s2 ++ [.regions o.regionsReleasePages])
    else (r2, s2)
  { released := r3, steps := s3, recorded := (numPages, r3) }

/-- ReleaseAtLeastNPagesBreakingHugepages: straight to the filler with
empty skip intervals and hit_limit = true. -/
def releaseBreakingHugepages (o : ReleaseOracle) (n : Nat) : Nat :=
  o.fillerReleasePages n ⟨0, 0, 0⟩ false true

/-! ## New: lock and backing discipline -/

/-- Page range of a returned span. -/
structure SpanRange where
  startPage : Nat
  numPages : Nat
  deriving DecidableEq, Repr

/-- Observable actions of New, in program order. -/
inductive NewEvent where
  | lockAcquire
  | allocUnderLock (n : Nat)
  | lockRelease
  | backRange (startAddr bytes : Nat)   -- SystemBack over the span
  deriving DecidableEq, Repr

/-- Event trace of New(n): LockAndAlloc acquires and drops the lock
around the placement call; afterwards, exactly a successful allocation
drawn from released memory is backed, over its whole byte range. -/
def newEventTrace (n : Nat) (result : Option SpanRange)
    (fromReleased : Bool) : List NewEvent :=
  [.lockAcquire, .allocUnderLock n, .lockRelease] ++
    (match result with
     | some s =>
       if fromReleased then
         [.backRange (s.startPage * kPageSize) (s.numPages * kPageSize)]
       else []
     | none => [])

/-! ## The router invariant -/

/-- Inductive invariant of the router state, tying the two donation
counters to the tracker pool and the tracker pool to the live spans. -/
structure Inv (st : HPAA) : Prop where
  trNodup : (st.trackers.map Tracker.hp).Nodup
  spNodup : (st.spans.map SpanRec.sid).Nodup
  trLt : ∀ t ∈ st.trackers, t.hp < st.nextHp
  spLt : ∀ s ∈ st.spans, s.firstHp + spanHl s ≤ st.nextHp
  sidLt : ∀ s ∈ st.spans, s.sid < st.nextSid
  spPos : ∀ s ∈ st.spans, 0 < s.n
  exactSlack : ∀ s ∈ st.spans, s.kind = .directExact → spanSlack s = 0
  donatedSlack : ∀ s ∈ st.spans, s.kind = .directDonated → 0 < spanSlack s
  donatedEq : st.donatedHugePages = donatedCount st.trackers
  abandonedEq : st.abandonedPages = abandonedSum st.trackers
  usedEq : ∀ t ∈ st.trackers, t.usedPages = usedSum st.spans t.hp
  abImpDon : ∀ t ∈ st.trackers, t.abandoned → t.wasDonated = true
  fillerTr : ∀ s ∈ st.spans, s.kind = .filler →
    ∃ t ∈ st.trackers, t.hp = s.firstHp
  donorTr : ∀ s ∈ st.spans, s.kind = .directDonated →
    ∃ t ∈ st.trackers,
      t.hp = tailHp s ∧ t.wasDonated = true ∧ t.abandoned = false
  donorUniq : ∀ s ∈ st.spans, ∀ s2 ∈ st.spans, s.kind = .directDonated →
    s2.kind = .directDonated → tailHp s = tailHp s2 → s = s2
  directNoTr : ∀ s ∈ st.spans, ∀ t ∈ st.trackers,
    (s.kind = .directExact → t.hp ≠ s.firstHp) ∧
    (s.kind = .directDonated → 2 ≤ spanHl s → t.hp ≠ s.firstHp)

/-- Demonstration state: one donating 300-page allocation. -/
def stC4demo : HPAA := (run [Op.allocRaw 300]).getD initState

/-- Demonstration state: a donating allocation whose slack is partly
reused, then the donor is freed, abandoning 44 pages. -/
def stC5demo : HPAA :=
  (run [Op.allocRaw 300, Op.allocFiller 1 10, Op.delete 0]).getD initState

/-- Demonstration state for claim C10: one donating allocation. -/
def stC10demo : HPAA := (run [Op.allocRaw 300]).getD initState

/-- The live donated span of stC10demo. -/
def spanC10 : SpanRec :=
  { sid := 0, firstHp := 0, n := 300, kind := SpanKind.directDonated }

/-- Concrete state for claim C2's witness: a live 300-page donated span
whose tail tracker still holds a 10-page reuse. -/
def stC2demo : HPAA :=
  { nextHp := 2, nextSid := 2,
    trackers := [{ hp := 1, usedPages := 54, wasDonated := true,
                   abandoned := false, abandonedCount := 44,
                   released := false }],
    spans := [{ sid := 0, firstHp := 0, n := 300,
                kind := SpanKind.directDonated }],
    donatedHugePages := 1, abandonedPages := 0, events := [] }

/-- The donated span of stC2demo. -/
def spanC2 : SpanRec :=
  { sid := 0, firstHp := 0, n := 300, kind := SpanKind.directDonated }

/-- The tail tracker of stC2demo. -/
def ptC2 : Tracker :=
  { hp := 1, usedPages := 54, wasDonated := true, abandoned := false,
    abandonedCount := 44, released := false }

theorem hlFromPages_pos {n : Nat} (h : 0 < n) : 0 < hlFromPages n := by
  simp only [hlFromPages, kPagesPerHugePage] at *
  omega

theorem le_hlInPages_hlFromPages (n : Nat) : n ≤ hlInPages (hlFromPages n) := by
  simp only [hlFromPages, hlInPages, kPagesPerHugePage]
  omega

theorem hlInPages_hlFromPages_lt {n : Nat} (h : 0 < n) :
    hlInPages (hlFromPages n) < n + kPagesPerHugePage := by
  simp only [hlFromPages, hlInPages, kPagesPerHugePage] at *
  omega

theorem hlInPages_hlFromPages_eq_iff {n : Nat} (h : 0 < n) :
    hlInPages (hlFromPages n) = n ↔ n % kPagesPerHugePage = 0 := by
  simp only [hlFromPages, hlInPages, kPagesPerHugePage] at *
  omega

/-! ## Keyed-list toolkit -/

theorem find?_key_some {α : Type} (key : α → Nat) {l : List α} {k : Nat}
    {a : α} (hf : l.find? (fun x => key x == k) = some a) :
    a ∈ l ∧ key a = k := by
  refine ⟨List.mem_of_find?_eq_some hf, ?_⟩
  have h := List.find?_some hf
  simpa using h

theorem find?_key_of_mem {α : Type} (key : α → Nat) :
    ∀ {l : List α} {a : α} {k : Nat}, (l.map key).Nodup → a ∈ l →
      key a = k → l.find? (fun x => key x == k) = some a := by
  intro l
  induction l with
  | nil => intro a k _ ha; cases ha
  | cons x xs ih =>
    intro a k hnd ha hk
    rw [List.map_cons, List.nodup_cons] at hnd
    rcases List.mem_cons.mp ha with rfl | hmem
    · exact List.find?_cons_of_pos _ (by simp [hk])
    · have hxk : key x ≠ k := by
        intro hxk
        exact hnd.1 (by rw [hxk, ← hk]; exact List.mem_map_of_mem key hmem)
      rw [List.find?_cons_of_neg _ (by simp [hxk])]
      exact ih hnd.2 hmem hk

theorem find?_key_none {α : Type} (key : α → Nat) {l : List α} {k : Nat}
    (h : ∀ a ∈ l, key a ≠ k) :
    l.find? (fun x => key x == k) = none := by
  apply List.find?_eq_none.mpr
  intro a ha
  simp [h a ha]

theorem nodup_map_filter {α : Type} (key : α → Nat) (p : α → Bool)
    {l : List α} (h : (l.map key).Nodup) :
    ((l.filter p).map key).Nodup :=
  h.sublist (List.Sublist.map key (List.filter_sublist l))

theorem key_inj_of_nodup {α : Type} (key : α → Nat) {l : List α}
    (h : (l.map key).Nodup) {a b : α} (ha : a ∈ l) (hb : b ∈ l)
    (hk : key a = key b) : a = b :=
  List.inj_on_of_nodup_map h ha hb hk

theorem mem_filter_key {α : Type} (key : α → Nat) {l : List α} {k : Nat}
    {a : α} : a ∈ l.filter (fun x => key x != k) ↔ a ∈ l ∧ key a ≠ k := by
  rw [List.mem_filter]
  simp

/-- Removing the element that a keyed find? locates splits any additive
summary of the list. -/
theorem map_sum_of_find? {α M : Type} [AddCommMonoid M]
    (key : α → Nat) (f : α → M) :
    ∀ {l : List α} {k : Nat} {a : α}, (l.map key).Nodup →
      l.find? (fun x => key x == k) = some a →
      (l.map f).sum = f a + ((l.filter (fun x => key x != k)).map f).sum := by
  intro l
  induction l with
  | nil => intro k a _ hf; simp [List.find?] at hf
  | cons x xs ih =>
    intro k a hnd hf
    rw [List.map_cons, List.nodup_cons] at hnd
    by_cases hx : key x = k
    · rw [List.find?_cons_of_pos _ (by simp [hx])] at hf
      injection hf with hf
      subst hf
      have hxs : xs.filter (fun y => key y != k) = xs := by
        apply List.filter_eq_self.mpr
        intro b hb
        have hbk : key b ≠ k := by
          intro hbk
          exact hnd.1 (by rw [hx, ← hbk]; exact List.mem_map_of_mem key hb)
        simp [hbk]
      simp [hx, hxs]
    · rw [List.find?_cons_of_neg _ (by simp [hx])] at hf
      have hrec := ih hnd.2 hf
      rw [List.filter_cons_of_pos (by simp [hx]), List.map_cons,
        List.sum_cons, List.map_cons, List.sum_cons, hrec]
      rw [add_left_comm]

theorem donatedCount_nonneg (ts : List Tracker) : 0 ≤ donatedCount ts := by
  apply List.sum_nonneg
  intro x hx
  rcases List.mem_map.mp hx with ⟨t, _, rfl⟩
  by_cases h : t.wasDonated <;> simp [h]

theorem abandonedSum_nonneg (ts : List Tracker) : 0 ≤ abandonedSum ts := by
  apply List.sum_nonneg
  intro x hx
  rcases List.mem_map.mp hx with ⟨t, _, rfl⟩
  by_cases h : t.abandoned <;> simp [h]

theorem usedSum_cons (s : SpanRec) (ss : List SpanRec) (h : Nat) :
    usedSum (s :: ss) h = contrib s h + usedSum ss h := by
  simp [usedSum]

theorem usedSum_eq_zero {ss : List SpanRec} {h : Nat}
    (hz : ∀ s ∈ ss, contrib s h = 0) : usedSum ss h = 0 := by
  unfold usedSum
  rw [List.sum_eq_zero]
  intro x hx
  rcases List.mem_map.mp hx with ⟨s, hs, rfl⟩
  exact hz s hs

theorem contrib_le_usedSum {ss : List SpanRec} {h : Nat} {s : SpanRec}
    (hs : s ∈ ss) : contrib s h ≤ usedSum ss h :=
  List.single_le_sum (fun x _ => Nat.zero_le x) _
    (List.mem_map_of_mem (fun s => contrib s h) hs)

theorem contrib_eq_zero {s : SpanRec} {h : Nat} (h1 : s.firstHp ≠ h)
    (h2 : tailHp s ≠ h) : contrib s h = 0 := by
  unfold contrib
  cases s.kind <;> simp [h1, h2]

theorem inv_initState : Inv initState := by
  constructor <;> simp [initState, donatedCount, abandonedSum]

/-! ## Span arithmetic -/

theorem spanHl_pos {s : SpanRec} (h : 0 < s.n) : 0 < spanHl s :=
  hlFromPages_pos h

theorem tailHp_lt {s : SpanRec} (hn : 0 < s.n) :
    tailHp s < s.firstHp + spanHl s := by
  have := spanHl_pos hn
  unfold tailHp
  omega

theorem firstHp_le_tailHp {s : SpanRec} (hn : 0 < s.n) :
    s.firstHp ≤ tailHp s := by
  have := spanHl_pos hn
  unfold tailHp
  omega

theorem spanSlack_lt {s : SpanRec} (hn : 0 < s.n) :
    spanSlack s < kPagesPerHugePage := by
  unfold spanSlack spanHl at *
  have h1 := le_hlInPages_hlFromPages s.n
  have h2 := hlInPages_hlFromPages_lt hn
  omega

theorem spanHl_eq_one {s : SpanRec} (h1 : 0 < s.n)
    (h2 : s.n < kPagesPerHugePage) : spanHl s = 1 := by
  unfold spanHl hlFromPages kPagesPerHugePage at *
  omega

theorem contrib_self_filler {s : SpanRec} (hk : s.kind = .filler) :
    contrib s s.firstHp = s.n := by
  unfold contrib
  rw [hk]
  simp

theorem contrib_ne_filler {s : SpanRec} (hk : s.kind = .filler) {h : Nat}
    (hne : s.firstHp ≠ h) : contrib s h = 0 := by
  unfold contrib
  rw [hk]
  simp [hne]

theorem contrib_tail_donated {s : SpanRec} (hk : s.kind = .directDonated) :
    contrib s (tailHp s) = kPagesPerHugePage - spanSlack s := by
  unfold contrib
  rw [hk]
  simp

theorem contrib_ne_donated {s : SpanRec} (hk : s.kind = .directDonated)
    {h : Nat} (hne : tailHp s ≠ h) : contrib s h = 0 := by
  unfold contrib
  rw [hk]
  simp [hne]

theorem contrib_exact {s : SpanRec} (hk : s.kind = .directExact) (h : Nat) :
    contrib s h = 0 := by
  unfold contrib
  rw [hk]

theorem contrib_donated_pos {s : SpanRec} (hk : s.kind = .directDonated)
    (hn : 0 < s.n) : 0 < contrib s (tailHp s) := by
  rw [contrib_tail_donated hk]
  have := spanSlack_lt hn
  omega

/-! ## Tracker-map lemmas -/

theorem findTracker_some {ts : List Tracker} {h : Nat} {t : Tracker}
    (hf : findTracker ts h = some t) : t ∈ ts ∧ t.hp = h :=
  find?_key_some Tracker.hp hf

theorem findTracker_of_mem {ts : List Tracker} {t : Tracker} {h : Nat}
    (nd : (ts.map Tracker.hp).Nodup) (hm : t ∈ ts) (hh : t.hp = h) :
    findTracker ts h = some t :=
  find?_key_of_mem Tracker.hp nd hm hh

theorem mem_eraseTracker {ts : List Tracker} {h : Nat} {t : Tracker} :
    t ∈ eraseTracker ts h ↔ t ∈ ts ∧ t.hp ≠ h :=
  mem_filter_key Tracker.hp

theorem eraseTracker_nodup {ts : List Tracker} {h : Nat}
    (nd : (ts.map Tracker.hp).Nodup) :
    ((eraseTracker ts h).map Tracker.hp).Nodup :=
  nodup_map_filter Tracker.hp _ nd

theorem mem_setTracker {ts : List Tracker} {h : Nat} {t1 t2 : Tracker} :
    t2 ∈ setTracker ts h t1 ↔ t2 = t1 ∨ (t2 ∈ ts ∧ t2.hp ≠ h) := by
  unfold setTracker
  rw [List.mem_cons, mem_eraseTracker]

theorem setTracker_nodup {ts : List Tracker} {h : Nat} {t1 : Tracker}
    (nd : (ts.map Tracker.hp).Nodup) (ht : t1.hp = h) :
    ((setTracker ts h t1).map Tracker.hp).Nodup := by
  unfold setTracker
  rw [List.map_cons, List.nodup_cons]
  refine ⟨?_, eraseTracker_nodup nd⟩
  intro hmem
  rcases List.mem_map.mp hmem with ⟨t2, ht2, hhp⟩
  exact (mem_eraseTracker.mp ht2).2 (hhp.trans ht)

theorem donatedCount_decomp {ts : List Tracker} {h : Nat} {t : Tracker}
    (nd : (ts.map Tracker.hp).Nodup) (hf : findTracker ts h = some t) :
    donatedCount ts =
      (if t.wasDonated then (1 : Int) else 0) +
        donatedCount (eraseTracker ts h) :=
  map_sum_of_find? Tracker.hp _ nd hf

theorem abandonedSum_decomp {ts : List Tracker} {h : Nat} {t : Tracker}
    (nd : (ts.map Tracker.hp).Nodup) (hf : findTracker ts h = some t) :
    abandonedSum ts =
      (if t.abandoned then (t.abandonedCount : Int) else 0) +
        abandonedSum (eraseTracker ts h) :=
  map_sum_of_find? Tracker.hp _ nd hf

theorem donatedCount_cons (t : Tracker) (ts : List Tracker) :
    donatedCount (t :: ts) =
      (if t.wasDonated then (1 : Int) else 0) + donatedCount ts := by
  simp [donatedCount]

theorem abandonedSum_cons (t : Tracker) (ts : List Tracker) :
    abandonedSum (t :: ts) =
      (if t.abandoned then (t.abandonedCount : Int) else 0) +
        abandonedSum ts := by
  simp [abandonedSum]

theorem usedSum_decomp {ss : List SpanRec} {sid : Nat} {s : SpanRec}
    (nd : (ss.map SpanRec.sid).Nodup)
    (hf : ss.find? (fun x => x.sid == sid) = some s) (h : Nat) :
    usedSum ss h =
      contrib s h + usedSum (ss.filter (fun x => x.sid != sid)) h :=
  map_sum_of_find? SpanRec.sid _ nd hf

theorem mem_spanErase {ss : List SpanRec} {sid : Nat} {s : SpanRec} :
    s ∈ ss.filter (fun x => x.sid != sid) ↔ s ∈ ss ∧ s.sid ≠ sid :=
  mem_filter_key SpanRec.sid

theorem aac_hp (p n : Nat) (d : Bool) : (allocAndContribute p n d).hp = p :=
  rfl

theorem aac_used (p n : Nat) (d : Bool) :
    (allocAndContribute p n d).usedPages = n := rfl

theorem aac_don (p n : Nat) (d : Bool) :
    (allocAndContribute p n d).wasDonated = d := rfl

theorem aac_ab (p n : Nat) (d : Bool) :
    (allocAndContribute p n d).abandoned = false := rfl

theorem aac_count_true (p n : Nat) :
    (allocAndContribute p n true).abandonedCount = n := rfl

theorem aac_count_false (p n : Nat) :
    (allocAndContribute p n false).abandonedCount = 0 := rfl

/-! ## Invariant preservation: AllocRawHugepages -/

theorem inv_allocRawHugepages {st st' : HPAA} {n : Nat}
    (hinv : Inv st) (h : allocRawHugepages st n = some st') : Inv st' := by
  unfold allocRawHugepages at h
  by_cases hn : n = 0
  · rw [if_pos hn] at h
    cases h
  rw [if_neg hn] at h
  have hn0 : 0 < n := Nat.pos_of_ne_zero hn
  have hhl1 : 0 < hlFromPages n := hlFromPages_pos hn0
  have hnle : n ≤ hlInPages (hlFromPages n) := le_hlInPages_hlFromPages n
  by_cases hs : hlInPages (hlFromPages n) - n = 0
  · -- slack = 0: a single exact span, no tracker
    rw [if_pos hs] at h
    injection h with h
    subst h
    obtain ⟨nd1, nd2, lt1, lt2, lt3, pos, exS, donS, dEq, aEq, uEq, aid,
      fTr, dTr, dUq, dNT⟩ := hinv
    have hfresh : ∀ s ∈ st.spans, s.firstHp + spanHl s ≤ st.nextHp := lt2
    constructor <;> simp only []
    · exact nd1
    · rw [List.map_cons, List.nodup_cons]
      refine ⟨?_, nd2⟩
      intro hmem
      rcases List.mem_map.mp hmem with ⟨s2, hs2, hsid⟩
      exact absurd hsid (Nat.ne_of_lt (lt3 s2 hs2))
    · intro t ht
      exact Nat.lt_of_lt_of_le (lt1 t ht) (Nat.le_add_right _ _)
    · intro s hs2
      rcases List.mem_cons.mp hs2 with rfl | hmem
      · simp only [spanHl]
        exact Nat.le_refl _
      · exact Nat.le_trans (lt2 s hmem) (Nat.le_add_right _ _)
    · intro s hs2
      rcases List.mem_cons.mp hs2 with rfl | hmem
      · exact Nat.lt_succ_self _
      · exact Nat.lt_succ_of_lt (lt3 s hmem)
    · intro s hs2
      rcases List.mem_cons.mp hs2 with rfl | hmem
      · exact hn0
      · exact pos s hmem
    · intro s hs2 hk
      rcases List.mem_cons.mp hs2 with rfl | hmem
      · simpa [spanSlack, spanHl] using hs
      · exact exS s hmem hk
    · intro s hs2 hk
      rcases List.mem_cons.mp hs2 with rfl | hmem
      · cases hk
      · exact donS s hmem hk
    · exact dEq
    · exact aEq
    · intro t ht
      rw [usedSum_cons, contrib_exact rfl, Nat.zero_add]
      exact uEq t ht
    · exact aid
    · intro s hs2 hk
      rcases List.mem_cons.mp hs2 with rfl | hmem
      · cases hk
      · exact fTr s hmem hk
    · intro s hs2 hk
      rcases List.mem_cons.mp hs2 with rfl | hmem
      · cases hk
      · exact dTr s hmem hk
    · intro s hs2 s2 hs3 hk1 hk2 htl
      rcases List.mem_cons.mp hs2 with rfl | hm1
      · cases hk1
      rcases List.mem_cons.mp hs3 with rfl | hm2
      · cases hk2
      exact dUq s hm1 s2 hm2 hk1 hk2 htl
    · intro s hs2 t ht
      rcases List.mem_cons.mp hs2 with rfl | hmem
      · constructor
        · intro _
          exact Nat.ne_of_lt (lt1 t ht)
        · intro hk
          cases hk
      · exact dNT s hmem t ht
  · -- slack ≠ 0: donate the tail huge page
    rw [if_neg hs] at h
    injection h with h
    subst h
    obtain ⟨nd1, nd2, lt1, lt2, lt3, pos, exS, donS, dEq, aEq, uEq, aid,
      fTr, dTr, dUq, dNT⟩ := hinv
    have hlast : st.nextHp ≤ st.nextHp + hlFromPages n - 1 := by omega
    have hlast2 : st.nextHp + hlFromPages n - 1 < st.nextHp + hlFromPages n :=
      by omega
    constructor <;> simp only []
    · rw [List.map_cons, List.nodup_cons]
      refine ⟨?_, nd1⟩
      intro hmem
      rcases List.mem_map.mp hmem with ⟨t2, ht2, hhp⟩
      have := lt1 t2 ht2
      simp only [allocAndContribute] at hhp
      omega
    · rw [List.map_cons, List.nodup_cons]
      refine ⟨?_, nd2⟩
      intro hmem
      rcases List.mem_map.mp hmem with ⟨s2, hs2, hsid⟩
      exact absurd hsid (Nat.ne_of_lt (lt3 s2 hs2))
    · intro t ht
      rcases List.mem_cons.mp ht with rfl | hmem
      · rw [aac_hp]
        omega
      · exact Nat.lt_of_lt_of_le (lt1 t hmem) (Nat.le_add_right _ _)
    · intro s hs2
      rcases List.mem_cons.mp hs2 with rfl | hmem
      · simp only [spanHl]
        exact Nat.le_refl _
      · exact Nat.le_trans (lt2 s hmem) (Nat.le_add_right _ _)
    · intro s hs2
      rcases List.mem_cons.mp hs2 with rfl | hmem
      · exact Nat.lt_succ_self _
      · exact Nat.lt_succ_of_lt (lt3 s hmem)
    · intro s hs2
      rcases List.mem_cons.mp hs2 with rfl | hmem
      · exact hn0
      · exact pos s hmem
    · intro s hs2 hk
      rcases List.mem_cons.mp hs2 with rfl | hmem
      · cases hk
      · exact exS s hmem hk
    · intro s hs2 hk
      rcases List.mem_cons.mp hs2 with rfl | hmem
      · simp only [spanSlack, spanHl]
        omega
      · exact donS s hmem hk
    · rw [donatedCount_cons, aac_don, dEq]
      simp only [if_true]
      omega
    · rw [abandonedSum_cons, aac_ab, aEq]
      simp only [Bool.false_eq_true, if_false]
      omega
    · intro t ht
      rcases List.mem_cons.mp ht with rfl | hmem
      · rw [aac_used, aac_hp, usedSum_cons]
        have htl : tailHp
            { sid := st.nextSid, firstHp := st.nextHp, n := n,
              kind := SpanKind.directDonated } =
            st.nextHp + hlFromPages n - 1 := by
          simp only [tailHp, spanHl]
        rw [show contrib
            { sid := st.nextSid, firstHp := st.nextHp, n := n,
              kind := SpanKind.directDonated }
            (st.nextHp + hlFromPages n - 1) =
            kPagesPerHugePage - spanSlack
              { sid := st.nextSid, firstHp := st.nextHp, n := n,
                kind := SpanKind.directDonated } from by
          rw [← htl]; exact contrib_tail_donated rfl]
        have hzero : usedSum st.spans (st.nextHp + hlFromPages n - 1) = 0 := by
          apply usedSum_eq_zero
          intro s2 hs2
          apply contrib_eq_zero
          · have := lt2 s2 hs2
            have := spanHl_pos (pos s2 hs2)
            omega
          · have := lt2 s2 hs2
            have h1 := tailHp_lt (pos s2 hs2)
            omega
        rw [hzero]
        simp only [spanSlack, spanHl]
        omega
      · rw [usedSum_cons]
        have hz : contrib
            { sid := st.nextSid, firstHp := st.nextHp, n := n,
              kind := SpanKind.directDonated } t.hp = 0 := by
          apply contrib_eq_zero
          · have := lt1 t hmem
            show st.nextHp ≠ t.hp
            omega
          · have := lt1 t hmem
            show st.nextHp + hlFromPages n - 1 ≠ t.hp
            omega
        rw [hz, Nat.zero_add]
        exact uEq t hmem
    · intro t ht
      rcases List.mem_cons.mp ht with rfl | hmem
      · intro hab
        cases hab
      · exact aid t hmem
    · intro s hs2 hk
      rcases List.mem_cons.mp hs2 with rfl | hmem
      · cases hk
      · obtain ⟨t, htm, hte⟩ := fTr s hmem hk
        exact ⟨t, List.mem_cons_of_mem _ htm, hte⟩
    · intro s hs2 hk
      rcases List.mem_cons.mp hs2 with rfl | hmem
      · exact ⟨allocAndContribute (st.nextHp + hlFromPages n - 1)
          (kPagesPerHugePage - (hlInPages (hlFromPages n) - n)) true,
          List.mem_cons_self _ _, rfl, rfl, rfl⟩
      · obtain ⟨t, htm, hte⟩ := dTr s hmem hk
        exact ⟨t, List.mem_cons_of_mem _ htm, hte⟩
    · intro s hs2 s2 hs3 hk1 hk2 htl
      rcases List.mem_cons.mp hs2 with rfl | hm1 <;>
        rcases List.mem_cons.mp hs3 with rfl | hm2
      · rfl
      · exfalso
        have h1 := lt2 s2 hm2
        have h2 := spanHl_pos (pos s2 hm2)
        simp only [tailHp, spanHl] at htl h1 h2
        omega
      · exfalso
        have h1 := lt2 s hm1
        have h2 := spanHl_pos (pos s hm1)
        simp only [tailHp, spanHl] at htl h1 h2
        omega
      · exact dUq s hm1 s2 hm2 hk1 hk2 htl
    · intro s hs2 t ht
      rcases List.mem_cons.mp hs2 with rfl | hm1 <;>
        rcases List.mem_cons.mp ht with rfl | hm2
      · constructor
        · intro hk
          cases hk
        · intro _ hge
          simp only [spanHl] at hge
          rw [aac_hp]
          show st.nextHp + hlFromPages n - 1 ≠ st.nextHp
          omega
      · constructor
        · intro hk
          cases hk
        · intro _ _
          have := lt1 t hm2
          show t.hp ≠ st.nextHp
          omega
      · have h1 := lt2 s hm1
        have h2 := spanHl_pos (pos s hm1)
        constructor
        · intro _
          rw [aac_hp]
          omega
        · intro _ _
          rw [aac_hp]
          omega
      · exact dNT s hm1 t hm2

/-! ## Invariant preservation: the filler allocation paths -/

theorem inv_refillFiller {st st' : HPAA} {n : Nat}
    (hinv : Inv st) (h : refillFiller st n = some st') : Inv st' := by
  unfold refillFiller at h
  by_cases hg : n = 0 ∨ kPagesPerHugePage / 2 < n
  · rw [if_pos hg] at h
    cases h
  rw [if_neg hg] at h
  push_neg at hg
  have hn0 : 0 < n := Nat.pos_of_ne_zero hg.1
  have hnK : n < kPagesPerHugePage := by
    have := hg.2
    simp only [kPagesPerHugePage] at *
    omega
  injection h with h
  subst h
  obtain ⟨nd1, nd2, lt1, lt2, lt3, pos, exS, donS, dEq, aEq, uEq, aid,
    fTr, dTr, dUq, dNT⟩ := hinv
  have hone : hlFromPages n = 1 := by
    simp only [hlFromPages, kPagesPerHugePage] at *
    omega
  constructor <;> simp only []
  · rw [List.map_cons, List.nodup_cons]
    refine ⟨?_, nd1⟩
    intro hmem
    rcases List.mem_map.mp hmem with ⟨t2, ht2, hhp⟩
    have := lt1 t2 ht2
    rw [aac_hp] at hhp
    omega
  · rw [List.map_cons, List.nodup_cons]
    refine ⟨?_, nd2⟩
    intro hmem
    rcases List.mem_map.mp hmem with ⟨s2, hs2, hsid⟩
    exact absurd hsid (Nat.ne_of_lt (lt3 s2 hs2))
  · intro t ht
    rcases List.mem_cons.mp ht with rfl | hmem
    · rw [aac_hp]
      omega
    · exact Nat.lt_of_lt_of_le (lt1 t hmem) (Nat.le_add_right _ _)
  · intro s hs2
    rcases List.mem_cons.mp hs2 with rfl | hmem
    · show st.nextHp + spanHl _ ≤ st.nextHp + 1
      simp only [spanHl, hone]
      omega
    · exact Nat.le_trans (lt2 s hmem) (Nat.le_add_right _ _)
  · intro s hs2
    rcases List.mem_cons.mp hs2 with rfl | hmem
    · exact Nat.lt_succ_self _
    · exact Nat.lt_succ_of_lt (lt3 s hmem)
  · intro s hs2
    rcases List.mem_cons.mp hs2 with rfl | hmem
    · exact hn0
    · exact pos s hmem
  · intro s hs2 hk
    rcases List.mem_cons.mp hs2 with rfl | hmem
    · cases hk
    · exact exS s hmem hk
  · intro s hs2 hk
    rcases List.mem_cons.mp hs2 with rfl | hmem
    · cases hk
    · exact donS s hmem hk
  · rw [donatedCount_cons, aac_don, dEq]
    simp
  · rw [abandonedSum_cons, aac_ab, aEq]
    simp
  · intro t ht
    rcases List.mem_cons.mp ht with rfl | hmem
    · rw [aac_used, aac_hp, usedSum_cons, contrib_self_filler rfl]
      have hzero : usedSum st.spans st.nextHp = 0 := by
        apply usedSum_eq_zero
        intro s2 hs2
        apply contrib_eq_zero
        · have := lt2 s2 hs2
          have := spanHl_pos (pos s2 hs2)
          omega
        · have := lt2 s2 hs2
          have := tailHp_lt (pos s2 hs2)
          omega
      rw [hzero]
      show n = n + 0
      omega
    · rw [usedSum_cons]
      have hz : contrib
          { sid := st.nextSid, firstHp := st.nextHp, n := n,
            kind := SpanKind.filler } t.hp = 0 := by
        apply contrib_ne_filler rfl
        have := lt1 t hmem
        show st.nextHp ≠ t.hp
        omega
      rw [hz, Nat.zero_add]
      exact uEq t hmem
  · intro t ht
    rcases List.mem_cons.mp ht with rfl | hmem
    · intro hab
      cases hab
    · exact aid t hmem
  · intro s hs2 hk
    rcases List.mem_cons.mp hs2 with rfl | hmem
    · exact ⟨allocAndContribute st.nextHp n false,
        List.mem_cons_self _ _, rfl⟩
    · obtain ⟨t, htm, hte⟩ := fTr s hmem hk
      exact ⟨t, List.mem_cons_of_mem _ htm, hte⟩
  · intro s hs2 hk
    rcases List.mem_cons.mp hs2 with rfl | hmem
    · cases hk
    · obtain ⟨t, htm, hte⟩ := dTr s hmem hk
      exact ⟨t, List.mem_cons_of_mem _ htm, hte⟩
  · intro s hs2 s2 hs3 hk1 hk2 htl
    rcases List.mem_cons.mp hs2 with rfl | hm1
    · cases hk1
    rcases List.mem_cons.mp hs3 with rfl | hm2
    · cases hk2
    exact dUq s hm1 s2 hm2 hk1 hk2 htl
  · intro s hs2 t ht
    rcases List.mem_cons.mp hs2 with rfl | hm1
    · constructor
      · intro hk
        cases hk
      · intro hk
        cases hk
    rcases List.mem_cons.mp ht with rfl | hm2
    · have h1 := lt2 s hm1
      have h2 := spanHl_pos (pos s hm1)
      constructor
      · intro _
        rw [aac_hp]
        omega
      · intro _ _
        rw [aac_hp]
        omega
    · exact dNT s hm1 t hm2

theorem inv_allocFromFiller {st st' : HPAA} {h0 n : Nat}
    (hinv : Inv st) (h : allocFromFiller st h0 n = some st') : Inv st' := by
  unfold allocFromFiller at h
  by_cases hg : n = 0 ∨ kPagesPerHugePage ≤ n
  · rw [if_pos hg] at h
    cases h
  rw [if_neg hg] at h
  push_neg at hg
  have hn0 : 0 < n := Nat.pos_of_ne_zero hg.1
  have hnK : n < kPagesPerHugePage := hg.2
  cases hf : findTracker st.trackers h0 with
  | none =>
    rw [hf] at h
    simp at h
  | some t =>
    rw [hf] at h
    simp only [] at h
    by_cases hcap : t.usedPages + n ≤ kPagesPerHugePage
    · rw [if_pos hcap] at h
      injection h with h
      subst h
      obtain ⟨nd1, nd2, lt1, lt2, lt3, pos, exS, donS, dEq, aEq, uEq, aid,
        fTr, dTr, dUq, dNT⟩ := hinv
      obtain ⟨hmem, hth⟩ := findTracker_some hf
      have hone : hlFromPages n = 1 := by
        simp only [hlFromPages, kPagesPerHugePage] at *
        omega
      have hhplt : h0 < st.nextHp := hth ▸ lt1 t hmem
      constructor <;> simp only []
      · exact setTracker_nodup nd1 hth
      · rw [List.map_cons, List.nodup_cons]
        refine ⟨?_, nd2⟩
        intro hmem2
        rcases List.mem_map.mp hmem2 with ⟨s2, hs2, hsid⟩
        exact absurd hsid (Nat.ne_of_lt (lt3 s2 hs2))
      · intro t2 ht2
        rcases mem_setTracker.mp ht2 with rfl | ⟨hm, _⟩
        · show t.hp < st.nextHp
          exact lt1 t hmem
        · exact lt1 t2 hm
      · intro s hs2
        rcases List.mem_cons.mp hs2 with rfl | hmem2
        · show h0 + spanHl _ ≤ st.nextHp
          simp only [spanHl, hone]
          omega
        · exact lt2 s hmem2
      · intro s hs2
        rcases List.mem_cons.mp hs2 with rfl | hmem2
        · exact Nat.lt_succ_self _
        · exact Nat.lt_succ_of_lt (lt3 s hmem2)
      · intro s hs2
        rcases List.mem_cons.mp hs2 with rfl | hmem2
        · exact hn0
        · exact pos s hmem2
      · intro s hs2 hk
        rcases List.mem_cons.mp hs2 with rfl | hmem2
        · cases hk
        · exact exS s hmem2 hk
      · intro s hs2 hk
        rcases List.mem_cons.mp hs2 with rfl | hmem2
        · cases hk
        · exact donS s hmem2 hk
      · rw [dEq, donatedCount_decomp nd1 hf]
        unfold setTracker
        rw [donatedCount_cons]
      · rw [aEq, abandonedSum_decomp nd1 hf]
        unfold setTracker
        rw [abandonedSum_cons]
      · intro t2 ht2
        rcases mem_setTracker.mp ht2 with rfl | ⟨hm, hne⟩
        · show t.usedPages + n = usedSum _ t.hp
          rw [usedSum_cons, hth, contrib_self_filler rfl]
          have := uEq t hmem
          rw [hth] at this
          show t.usedPages + n = n + usedSum st.spans h0
          omega
        · rw [usedSum_cons]
          have hz : contrib
              { sid := st.nextSid, firstHp := h0, n := n,
                kind := SpanKind.filler } t2.hp = 0 := by
            apply contrib_ne_filler rfl
            exact fun hh => hne hh.symm
          rw [hz, Nat.zero_add]
          exact uEq t2 hm
      · intro t2 ht2
        rcases mem_setTracker.mp ht2 with rfl | ⟨hm, _⟩
        · show t.abandoned = true → t.wasDonated = true
          exact aid t hmem
        · exact aid t2 hm
      · intro s hs2 hk
        rcases List.mem_cons.mp hs2 with rfl | hmem2
        · exact ⟨{ t with usedPages := t.usedPages + n },
            mem_setTracker.mpr (Or.inl rfl), hth⟩
        · obtain ⟨t0, htm, hte⟩ := fTr s hmem2 hk
          by_cases hcase : t0.hp = h0
          · exact ⟨{ t with usedPages := t.usedPages + n },
              mem_setTracker.mpr (Or.inl rfl), by
                show t.hp = s.firstHp
                rw [hth, ← hcase, hte]⟩
          · exact ⟨t0, mem_setTracker.mpr (Or.inr ⟨htm, hcase⟩), hte⟩
      · intro s hs2 hk
        rcases List.mem_cons.mp hs2 with rfl | hmem2
        · cases hk
        · obtain ⟨t0, htm, hte1, hte2, hte3⟩ := dTr s hmem2 hk
          by_cases hcase : t0.hp = h0
          · have ht0t : t0 = t :=
              key_inj_of_nodup Tracker.hp nd1 htm hmem (hcase.trans hth.symm)
            refine ⟨{ t with usedPages := t.usedPages + n },
              mem_setTracker.mpr (Or.inl rfl), ?_, ?_, ?_⟩
            · show t.hp = tailHp s
              rw [← ht0t]
              exact hte1
            · show t.wasDonated = true
              rw [← ht0t]
              exact hte2
            · show t.abandoned = false
              rw [← ht0t]
              exact hte3
          · exact ⟨t0, mem_setTracker.mpr (Or.inr ⟨htm, hcase⟩),
              hte1, hte2, hte3⟩
      · intro s hs2 s2 hs3 hk1 hk2 htl
        rcases List.mem_cons.mp hs2 with rfl | hm1
        · cases hk1
        rcases List.mem_cons.mp hs3 with rfl | hm2
        · cases hk2
        exact dUq s hm1 s2 hm2 hk1 hk2 htl
      · intro s hs2 t2 ht2
        rcases List.mem_cons.mp hs2 with rfl | hm1
        · constructor
          · intro hk
            cases hk
          · intro hk
            cases hk
        rcases mem_setTracker.mp ht2 with rfl | ⟨hm, _⟩
        · have := dNT s hm1 t hmem
          constructor
          · intro hk
            show t.hp ≠ s.firstHp
            exact this.1 hk
          · intro hk hge
            show t.hp ≠ s.firstHp
            exact this.2 hk hge
        · exact dNT s hm1 t2 hm
    · rw [if_neg hcap] at h
      cases h

/-! ## Invariant preservation: the delete paths -/

theorem tailHp_eq_first_of_hl1 {s : SpanRec} (h1 : spanHl s = 1) :
    tailHp s = s.firstHp := by
  unfold tailHp
  rw [h1]
  omega

theorem contrib_first_donated_hl1 {s : SpanRec}
    (hk : s.kind = SpanKind.directDonated) (h1 : spanHl s = 1) :
    contrib s s.firstHp = s.n := by
  rw [← tailHp_eq_first_of_hl1 h1, contrib_tail_donated hk]
  have hle : s.n ≤ kPagesPerHugePage := by
    simp only [spanHl, hlFromPages, kPagesPerHugePage] at h1 ⊢
    omega
  simp only [spanSlack, h1, hlInPages]
  omega

/-- Abandon update: a donating deallocation leaves its tail tracker
non-empty; the tracker loses the put pages, gains the abandoned flag,
and abandoned_pages_ grows by its abandoned count. -/
theorem inv_abandon_case {st : HPAA} {sid : Nat} {s : SpanRec}
    {pt : Tracker} {ev : List CacheEvent} {m : Nat}
    (hinv : Inv st)
    (hfs : st.spans.find? (fun x => x.sid == sid) = some s)
    (hpt : pt ∈ st.trackers)
    (hk : s.kind = SpanKind.directDonated)
    (hhp : pt.hp = tailHp s)
    (hrem_eq : pt.usedPages - m =
      usedSum (st.spans.filter (fun x => x.sid != sid)) pt.hp)
    (k : Nat) (hk2 : pt.hp = k) :
    Inv { st with
      spans := st.spans.filter (fun x => x.sid != sid),
      trackers := setTracker st.trackers k
        { pt with usedPages := pt.usedPages - m, abandoned := true },
      abandonedPages := st.abandonedPages + pt.abandonedCount,
      events := ev } := by
  subst hk2
  obtain ⟨nd1, nd2, lt1, lt2, lt3, pos, exS, donS, dEq, aEq, uEq, aid,
    fTr, dTr, dUq, dUqT⟩ := hinv
  obtain ⟨hsm, hss⟩ := find?_key_some SpanRec.sid hfs
  obtain ⟨t0, ht0m, ht0hp, ht0d, ht0a⟩ := dTr s hsm hk
  have ht0pt : t0 = pt :=
    key_inj_of_nodup Tracker.hp nd1 ht0m hpt (ht0hp.trans hhp.symm)
  have hptd : pt.wasDonated = true := ht0pt ▸ ht0d
  have hpta : pt.abandoned = false := ht0pt ▸ ht0a
  have hfind : findTracker st.trackers pt.hp = some pt :=
    findTracker_of_mem nd1 hpt rfl
  constructor <;> simp only []
  · exact setTracker_nodup nd1 rfl
  · exact nodup_map_filter SpanRec.sid _ nd2
  · intro t2 ht2
    rcases mem_setTracker.mp ht2 with rfl | ⟨hm2, _⟩
    · exact lt1 pt hpt
    · exact lt1 t2 hm2
  · intro s2 hs2
    exact lt2 s2 (mem_spanErase.mp hs2).1
  · intro s2 hs2
    exact lt3 s2 (mem_spanErase.mp hs2).1
  · intro s2 hs2
    exact pos s2 (mem_spanErase.mp hs2).1
  · intro s2 hs2 hk3
    exact exS s2 (mem_spanErase.mp hs2).1 hk3
  · intro s2 hs2 hk3
    exact donS s2 (mem_spanErase.mp hs2).1 hk3
  · rw [dEq, donatedCount_decomp nd1 hfind]
    unfold setTracker
    rw [donatedCount_cons]
  · rw [aEq, abandonedSum_decomp nd1 hfind]
    unfold setTracker
    rw [abandonedSum_cons]
    show _ + ↑pt.abandonedCount =
      (if true = true then (pt.abandonedCount : Int) else 0) + _
    rw [hpta]
    simp
    omega
  · intro t2 ht2
    rcases mem_setTracker.mp ht2 with rfl | ⟨hm2, hne⟩
    · exact hrem_eq
    · have hz : contrib s t2.hp = 0 :=
        contrib_ne_donated hk (fun hh => hne ((hhp.trans hh).symm))
      have := uEq t2 hm2
      rw [usedSum_decomp nd2 hfs t2.hp, hz, Nat.zero_add] at this
      exact this
  · intro t2 ht2
    rcases mem_setTracker.mp ht2 with rfl | ⟨hm2, _⟩
    · intro _
      exact hptd
    · exact aid t2 hm2
  · intro s2 hs2 hk3
    obtain ⟨hs2m, _⟩ := mem_spanErase.mp hs2
    obtain ⟨t0b, ht0bm, ht0bhp⟩ := fTr s2 hs2m hk3
    by_cases hcase : t0b.hp = pt.hp
    · exact ⟨{ pt with usedPages := pt.usedPages - m, abandoned := true },
        mem_setTracker.mpr (Or.inl rfl), by
          show pt.hp = s2.firstHp
          rw [← hcase]
          exact ht0bhp⟩
    · exact ⟨t0b, mem_setTracker.mpr (Or.inr ⟨ht0bm, hcase⟩), ht0bhp⟩
  · intro s2 hs2 hk3
    obtain ⟨hs2m, hs2ne⟩ := mem_spanErase.mp hs2
    obtain ⟨t0b, ht0bm, ht0bhp, ht0bd, ht0ba⟩ := dTr s2 hs2m hk3
    by_cases hcase : t0b.hp = pt.hp
    · exfalso
      have ht0bpt : t0b = pt := key_inj_of_nodup Tracker.hp nd1 ht0bm hpt hcase
      have htl : tailHp s2 = tailHp s := by
        rw [← ht0bhp, ht0bpt, hhp]
      have := dUq s2 hs2m s hsm hk3 hk htl
      exact hs2ne (this ▸ hss)
    · exact ⟨t0b, mem_setTracker.mpr (Or.inr ⟨ht0bm, hcase⟩),
        ht0bhp, ht0bd, ht0ba⟩
  · intro s2 hs2 s3 hs3 hk3 hk4 htl
    exact dUq s2 (mem_spanErase.mp hs2).1 s3 (mem_spanErase.mp hs3).1
      hk3 hk4 htl
  · intro s2 hs2 t2 ht2
    have hs2m := (mem_spanErase.mp hs2).1
    rcases mem_setTracker.mp ht2 with rfl | ⟨hm2, _⟩
    · have := dUqT s2 hs2m pt hpt
      constructor
      · intro hk3
        exact this.1 hk3
      · intro hk3 hge
        exact this.2 hk3 hge
    · exact dUqT s2 hs2m t2 hm2

/-- Plain put update: a filler span is returned without emptying its
tracker; only the used-page count changes. -/
theorem inv_plain_put_case {st : HPAA} {sid : Nat} {s : SpanRec}
    {pt : Tracker} {ev : List CacheEvent}
    (hinv : Inv st)
    (hfs : st.spans.find? (fun x => x.sid == sid) = some s)
    (hpt : pt ∈ st.trackers)
    (hk : s.kind = SpanKind.filler)
    (hhp : pt.hp = s.firstHp)
    (hrem_eq : pt.usedPages - s.n =
      usedSum (st.spans.filter (fun x => x.sid != sid)) pt.hp)
    (k : Nat) (hk2 : pt.hp = k) :
    Inv { st with
      spans := st.spans.filter (fun x => x.sid != sid),
      trackers := setTracker st.trackers k
        { pt with usedPages := pt.usedPages - s.n },
      events := ev } := by
  subst hk2
  obtain ⟨nd1, nd2, lt1, lt2, lt3, pos, exS, donS, dEq, aEq, uEq, aid,
    fTr, dTr, dUq, dUqT⟩ := hinv
  obtain ⟨hsm, hss⟩ := find?_key_some SpanRec.sid hfs
  have hfind : findTracker st.trackers pt.hp = some pt :=
    findTracker_of_mem nd1 hpt rfl
  constructor <;> simp only []
  · exact setTracker_nodup nd1 rfl
  · exact nodup_map_filter SpanRec.sid _ nd2
  · intro t2 ht2
    rcases mem_setTracker.mp ht2 with rfl | ⟨hm2, _⟩
    · exact lt1 pt hpt
    · exact lt1 t2 hm2
  · intro s2 hs2
    exact lt2 s2 (mem_spanErase.mp hs2).1
  · intro s2 hs2
    exact lt3 s2 (mem_spanErase.mp hs2).1
  · intro s2 hs2
    exact pos s2 (mem_spanErase.mp hs2).1
  · intro s2 hs2 hk3
    exact exS s2 (mem_spanErase.mp hs2).1 hk3
  · intro s2 hs2 hk3
    exact donS s2 (mem_spanErase.mp hs2).1 hk3
  · rw [dEq, donatedCount_decomp nd1 hfind]
    unfold setTracker
    rw [donatedCount_cons]
  · rw [aEq, abandonedSum_decomp nd1 hfind]
    unfold setTracker
    rw [abandonedSum_cons]
  · intro t2 ht2
    rcases mem_setTracker.mp ht2 with rfl | ⟨hm2, hne⟩
    · exact hrem_eq
    · have hz : contrib s t2.hp = 0 :=
        contrib_ne_filler hk (fun hh => hne ((hhp.trans hh).symm))
      have := uEq t2 hm2
      rw [usedSum_decomp nd2 hfs t2.hp, hz, Nat.zero_add] at this
      exact this
  · intro t2 ht2
    rcases mem_setTracker.mp ht2 with rfl | ⟨hm2, _⟩
    · exact aid pt hpt
    · exact aid t2 hm2
  · intro s2 hs2 hk3
    obtain ⟨hs2m, _⟩ := mem_spanErase.mp hs2
    obtain ⟨t0b, ht0bm, ht0bhp⟩ := fTr s2 hs2m hk3
    by_cases hcase : t0b.hp = pt.hp
    · exact ⟨{ pt with usedPages := pt.usedPages - s.n },
        mem_setTracker.mpr (Or.inl rfl), by
          show pt.hp = s2.firstHp
          rw [← hcase]
          exact ht0bhp⟩
    · exact ⟨t0b, mem_setTracker.mpr (Or.inr ⟨ht0bm, hcase⟩), ht0bhp⟩
  · intro s2 hs2 hk3
    obtain ⟨hs2m, _⟩ := mem_spanErase.mp hs2
    obtain ⟨t0b, ht0bm, ht0bhp, ht0bd, ht0ba⟩ := dTr s2 hs2m hk3
    by_cases hcase : t0b.hp = pt.hp
    · have ht0bpt : t0b = pt := key_inj_of_nodup Tracker.hp nd1 ht0bm hpt hcase
      refine ⟨{ pt with usedPages := pt.usedPages - s.n },
        mem_setTracker.mpr (Or.inl rfl), ?_, ?_, ?_⟩
      · show pt.hp = tailHp s2
        rw [← hcase, ht0bhp]
      · show pt.wasDonated = true
        rw [← ht0bpt]
        exact ht0bd
      · show pt.abandoned = false
        rw [← ht0bpt]
        exact ht0ba
    · exact ⟨t0b, mem_setTracker.mpr (Or.inr ⟨ht0bm, hcase⟩),
        ht0bhp, ht0bd, ht0ba⟩
  · intro s2 hs2 s3 hs3 hk3 hk4 htl
    exact dUq s2 (mem_spanErase.mp hs2).1 s3 (mem_spanErase.mp hs3).1
      hk3 hk4 htl
  · intro s2 hs2 t2 ht2
    have hs2m := (mem_spanErase.mp hs2).1
    rcases mem_setTracker.mp ht2 with rfl | ⟨hm2, _⟩
    · have := dUqT s2 hs2m pt hpt
      constructor
      · intro hk3
        exact this.1 hk3
      · intro hk3 hge
        exact this.2 hk3 hge
    · exact dUqT s2 hs2m t2 hm2

/-- Tracker removal: an emptying deallocation settles the donation
counters and removes the tracker from the pool. -/
theorem inv_erase_case {st : HPAA} {sid : Nat} {s : SpanRec}
    {pt : Tracker} {ev : List CacheEvent} {d a : Int}
    (hinv : Inv st)
    (hfs : st.spans.find? (fun x => x.sid == sid) = some s)
    (hpt : pt ∈ st.trackers)
    (hz : ∀ h2 : Nat, h2 ≠ pt.hp → contrib s h2 = 0)
    (hempty : usedSum (st.spans.filter (fun x => x.sid != sid)) pt.hp = 0)
    (hd : d = st.donatedHugePages - (if pt.wasDonated then 1 else 0))
    (ha : a = st.abandonedPages -
      (if pt.abandoned then (pt.abandonedCount : Int) else 0))
    (k : Nat) (hk2 : pt.hp = k) :
    Inv { st with
      spans := st.spans.filter (fun x => x.sid != sid),
      trackers := eraseTracker st.trackers k,
      donatedHugePages := d, abandonedPages := a, events := ev } := by
  subst hk2
  obtain ⟨nd1, nd2, lt1, lt2, lt3, pos, exS, donS, dEq, aEq, uEq, aid,
    fTr, dTr, dUq, dUqT⟩ := hinv
  obtain ⟨hsm, hss⟩ := find?_key_some SpanRec.sid hfs
  have hfind : findTracker st.trackers pt.hp = some pt :=
    findTracker_of_mem nd1 hpt rfl
  constructor <;> simp only []
  · exact eraseTracker_nodup nd1
  · exact nodup_map_filter SpanRec.sid _ nd2
  · intro t2 ht2
    exact lt1 t2 (mem_eraseTracker.mp ht2).1
  · intro s2 hs2
    exact lt2 s2 (mem_spanErase.mp hs2).1
  · intro s2 hs2
    exact lt3 s2 (mem_spanErase.mp hs2).1
  · intro s2 hs2
    exact pos s2 (mem_spanErase.mp hs2).1
  · intro s2 hs2 hk3
    exact exS s2 (mem_spanErase.mp hs2).1 hk3
  · intro s2 hs2 hk3
    exact donS s2 (mem_spanErase.mp hs2).1 hk3
  · rw [hd, dEq, donatedCount_decomp nd1 hfind]
    omega
  · rw [ha, aEq, abandonedSum_decomp nd1 hfind]
    omega
  · intro t2 ht2
    obtain ⟨hm2, hne⟩ := mem_eraseTracker.mp ht2
    have := uEq t2 hm2
    rw [usedSum_decomp nd2 hfs t2.hp, hz t2.hp hne, Nat.zero_add] at this
    exact this
  · intro t2 ht2
    exact aid t2 (mem_eraseTracker.mp ht2).1
  · intro s2 hs2 hk3
    obtain ⟨hs2m, _⟩ := mem_spanErase.mp hs2
    obtain ⟨t0b, ht0bm, ht0bhp⟩ := fTr s2 hs2m hk3
    by_cases hcase : t0b.hp = pt.hp
    · exfalso
      have hcb : contrib s2 pt.hp = s2.n := by
        rw [← hcase, ht0bhp]
        exact contrib_self_filler hk3
      have hle := contrib_le_usedSum (h := pt.hp) hs2
      rw [hcb, hempty] at hle
      exact absurd hle (by have := pos s2 hs2m; omega)
    · exact ⟨t0b, mem_eraseTracker.mpr ⟨ht0bm, hcase⟩, ht0bhp⟩
  · intro s2 hs2 hk3
    obtain ⟨hs2m, _⟩ := mem_spanErase.mp hs2
    obtain ⟨t0b, ht0bm, ht0bhp, ht0bd, ht0ba⟩ := dTr s2 hs2m hk3
    by_cases hcase : t0b.hp = pt.hp
    · exfalso
      have htl2 : tailHp s2 = pt.hp := by rw [← ht0bhp, hcase]
      have hcb := contrib_donated_pos hk3 (pos s2 hs2m)
      rw [htl2] at hcb
      have hle := contrib_le_usedSum (h := pt.hp) hs2
      rw [hempty] at hle
      omega
    · exact ⟨t0b, mem_eraseTracker.mpr ⟨ht0bm, hcase⟩, ht0bhp, ht0bd, ht0ba⟩
  · intro s2 hs2 s3 hs3 hk3 hk4 htl
    exact dUq s2 (mem_spanErase.mp hs2).1 s3 (mem_spanErase.mp hs3).1
      hk3 hk4 htl
  · intro s2 hs2 t2 ht2
    exact dUqT s2 (mem_spanErase.mp hs2).1 t2 (mem_eraseTracker.mp ht2).1

/-- Exact direct release: only the span list and the cache log change. -/
theorem inv_filter_exact {st : HPAA} {sid : Nat} {s : SpanRec}
    {ev : List CacheEvent}
    (hinv : Inv st)
    (hfs : st.spans.find? (fun x => x.sid == sid) = some s)
    (hzz : ∀ h2 : Nat, contrib s h2 = 0) :
    Inv { st with
      spans := st.spans.filter (fun x => x.sid != sid),
      events := ev } := by
  obtain ⟨nd1, nd2, lt1, lt2, lt3, pos, exS, donS, dEq, aEq, uEq, aid,
    fTr, dTr, dUq, dUqT⟩ := hinv
  constructor <;> simp only []
  · exact nd1
  · exact nodup_map_filter SpanRec.sid _ nd2
  · exact lt1
  · intro s2 hs2
    exact lt2 s2 (mem_spanErase.mp hs2).1
  · intro s2 hs2
    exact lt3 s2 (mem_spanErase.mp hs2).1
  · intro s2 hs2
    exact pos s2 (mem_spanErase.mp hs2).1
  · intro s2 hs2 hk3
    exact exS s2 (mem_spanErase.mp hs2).1 hk3
  · intro s2 hs2 hk3
    exact donS s2 (mem_spanErase.mp hs2).1 hk3
  · exact dEq
  · exact aEq
  · intro t2 ht2
    have := uEq t2 ht2
    rw [usedSum_decomp nd2 hfs t2.hp, hzz t2.hp, Nat.zero_add] at this
    exact this
  · exact aid
  · intro s2 hs2 hk3
    exact fTr s2 (mem_spanErase.mp hs2).1 hk3
  · intro s2 hs2 hk3
    exact dTr s2 (mem_spanErase.mp hs2).1 hk3
  · intro s2 hs2 s3 hs3 hk3 hk4 htl
    exact dUq s2 (mem_spanErase.mp hs2).1 s3 (mem_spanErase.mp hs3).1
      hk3 hk4 htl
  · intro s2 hs2 t2 ht2
    exact dUqT s2 (mem_spanErase.mp hs2).1 t2 ht2

theorem inv_deleteSpan {st st' : HPAA} {sid : Nat}
    (hinv : Inv st) (h : deleteSpan st sid = some st') : Inv st' := by
  unfold deleteSpan at h
  cases hfs : st.spans.find? (fun s => s.sid == sid) with
  | none =>
    rw [hfs] at h
    simp at h
  | some s =>
    rw [hfs] at h
    simp only [] at h
    obtain ⟨hsm, hss⟩ := find?_key_some SpanRec.sid hfs
    have nd1 := hinv.trNodup
    have nd2 := hinv.spNodup
    have hpos := hinv.spPos s hsm
    cases hft : findTracker st.trackers s.firstHp with
    | some pt =>
      rw [hft] at h
      simp only [] at h
      injection h with h
      subst h
      obtain ⟨hptm, hpthp⟩ := findTracker_some hft
      have hnotex : s.kind ≠ SpanKind.directExact := by
        intro hk
        exact (hinv.directNoTr s hsm pt hptm).1 hk hpthp
      have hhl1 : s.kind = SpanKind.directDonated → spanHl s = 1 := by
        intro hk
        by_contra hge
        have h2 : 2 ≤ spanHl s := by
          have := spanHl_pos hpos
          omega
        exact (hinv.directNoTr s hsm pt hptm).2 hk h2 hpthp
      have hcon : contrib s pt.hp = s.n := by
        cases hkc : s.kind with
        | filler =>
          rw [hpthp]
          exact contrib_self_filler hkc
        | directExact => exact absurd hkc hnotex
        | directDonated =>
          rw [hpthp]
          exact contrib_first_donated_hl1 hkc (hhl1 hkc)
      have hdecomp : pt.usedPages = s.n +
          usedSum (st.spans.filter (fun x => x.sid != sid)) pt.hp := by
        rw [hinv.usedEq pt hptm, usedSum_decomp nd2 hfs pt.hp, hcon]
      unfold deleteFromHugepage
      by_cases hrem : pt.usedPages - s.n = 0
      · -- filler Put emptied the tracker
        rw [if_neg (by omega)]
        unfold releaseHugepage
        have hempty : usedSum
            (st.spans.filter (fun x => x.sid != sid)) pt.hp = 0 := by
          omega
        have hz : ∀ h2 : Nat, h2 ≠ pt.hp → contrib s h2 = 0 := by
          intro h2 hne
          cases hkc : s.kind with
          | filler =>
            apply contrib_ne_filler hkc
            intro hh
            apply hne
            rw [← hh, hpthp]
          | directExact => exact absurd hkc hnotex
          | directDonated =>
            apply contrib_ne_donated hkc
            intro hh
            apply hne
            rw [← hh, tailHp_eq_first_of_hl1 (hhl1 hkc), hpthp]
        by_cases hwd : pt.wasDonated = true
        · rw [if_pos hwd]
          by_cases hab : pt.abandoned = true
          · rw [if_pos hab]
            exact inv_erase_case hinv hfs hptm hz hempty
              (by rw [hwd]; simp) (by rw [hab]; simp) _ rfl
          · rw [if_neg hab]
            exact inv_erase_case hinv hfs hptm hz hempty
              (by rw [hwd]; simp)
              (by rw [Bool.not_eq_true] at hab; rw [hab]; simp) _ rfl
        · rw [if_neg hwd]
          rw [Bool.not_eq_true] at hwd
          have hab0 : pt.abandoned = false := by
            cases hab : pt.abandoned
            · rfl
            · exact absurd (hinv.abImpDon pt hptm hab)
                (by rw [hwd]; exact Bool.false_ne_true)
          exact inv_erase_case hinv hfs hptm hz hempty
            (by rw [hwd]; simp) (by rw [hab0]; simp) _ rfl
      · rw [if_pos hrem]
        cases hkc : s.kind with
        | directExact => exact absurd hkc hnotex
        | filler =>
          have hdb : s.donated = false := by
            simp [SpanRec.donated, hkc]
          rw [if_neg (by simp [hdb])]
          exact inv_plain_put_case hinv hfs hptm hkc hpthp
            (by omega) _ rfl
        | directDonated =>
          have hdb : s.donated = true := by
            simp [SpanRec.donated, hkc]
          rw [if_pos hdb]
          exact inv_abandon_case hinv hfs hptm hkc
            (by rw [tailHp_eq_first_of_hl1 (hhl1 hkc)]; exact hpthp)
            (by omega) _ rfl
    | none =>
      rw [hft] at h
      simp only [] at h
      have hknotf : s.kind ≠ SpanKind.filler := by
        intro hk
        obtain ⟨t0, ht0m, ht0hp⟩ := hinv.fillerTr s hsm hk
        have := findTracker_of_mem nd1 ht0m ht0hp
        rw [this] at hft
        cases hft
      by_cases hsl : hlInPages (hlFromPages s.n) - s.n = 0
      · rw [if_pos hsl] at h
        injection h with h
        subst h
        have hke : s.kind = SpanKind.directExact := by
          cases hkc : s.kind with
          | filler => exact absurd hkc hknotf
          | directExact => rfl
          | directDonated =>
            exfalso
            have := hinv.donatedSlack s hsm hkc
            simp only [spanSlack, spanHl] at this
            omega
        exact inv_filter_exact hinv hfs (contrib_exact hke)
      · rw [if_neg hsl] at h
        have hkd : s.kind = SpanKind.directDonated := by
          cases hkc : s.kind with
          | filler => exact absurd hkc hknotf
          | directDonated => rfl
          | directExact =>
            exfalso
            have := hinv.exactSlack s hsm hkc
            simp only [spanSlack, spanHl] at this
            omega
        obtain ⟨t0, ht0m, ht0hp, ht0d, ht0a⟩ := hinv.donorTr s hsm hkd
        have hfind2 : findTracker st.trackers
            (s.firstHp + hlFromPages s.n - 1) = some t0 :=
          findTracker_of_mem nd1 ht0m ht0hp
        rw [hfind2] at h
        simp only [] at h
        have hcon2 : contrib s t0.hp =
            kPagesPerHugePage - (hlInPages (hlFromPages s.n) - s.n) := by
          rw [ht0hp, contrib_tail_donated hkd]
          rfl
        have hdecomp2 : t0.usedPages =
            (kPagesPerHugePage - (hlInPages (hlFromPages s.n) - s.n)) +
            usedSum (st.spans.filter (fun x => x.sid != sid)) t0.hp := by
          rw [hinv.usedEq t0 ht0m, usedSum_decomp nd2 hfs t0.hp, hcon2]
        by_cases hrem2 : t0.usedPages -
            (kPagesPerHugePage - (hlInPages (hlFromPages s.n) - s.n)) = 0
        · rw [if_neg (by omega)] at h
          have hempty2 : usedSum
              (st.spans.filter (fun x => x.sid != sid)) t0.hp = 0 := by
            omega
          have hz2 : ∀ h2 : Nat, h2 ≠ t0.hp → contrib s h2 = 0 := by
            intro h2 hne
            apply contrib_ne_donated hkd
            intro hh
            apply hne
            rw [← hh, ht0hp]
          by_cases hrel : t0.released = true
          · rw [if_pos hrel] at h
            injection h with h
            subst h
            exact inv_erase_case hinv hfs ht0m hz2 hempty2
              (by rw [ht0d]; simp) (by rw [ht0a]; simp) _ ht0hp
          · rw [if_neg hrel] at h
            injection h with h
            subst h
            exact inv_erase_case hinv hfs ht0m hz2 hempty2
              (by rw [ht0d]; simp) (by rw [ht0a]; simp) _ ht0hp
        · rw [if_pos hrem2] at h
          injection h with h
          subst h
          exact inv_abandon_case hinv hfs ht0m hkd ht0hp
            (by omega) _ ht0hp

theorem inv_step {st st' : HPAA} {op : Op}
    (hinv : Inv st) (h : step st op = some st') : Inv st' := by
  cases op with
  | allocFiller h0 n => exact inv_allocFromFiller hinv h
  | allocRefill n => exact inv_refillFiller hinv h
  | allocRaw n => exact inv_allocRawHugepages hinv h
  | delete sid => exact inv_deleteSpan hinv h

theorem inv_runFrom {st st' : HPAA} {ops : List Op}
    (hinv : Inv st) (h : runFrom st ops = some st') : Inv st' := by
  induction ops generalizing st with
  | nil =>
    unfold runFrom at h
    injection h with h
    subst h
    exact hinv
  | cons op ops ih =>
    unfold runFrom at h
    cases hs : step st op with
    | none =>
      rw [hs] at h
      cases h
    | some st1 =>
      rw [hs] at h
      exact ih (inv_step hinv hs) h

theorem inv_run {st : HPAA} {ops : List Op} (h : run ops = some st) :
    Inv st :=
  inv_runFrom inv_initState h

/-! ## Derived summaries -/

theorem donatedCount_eq_length (ts : List Tracker) :
    donatedCount ts =
      ((ts.filter (fun t => t.wasDonated)).length : Int) := by
  induction ts with
  | nil => simp [donatedCount]
  | cons t ts ih =>
    rw [donatedCount_cons, ih, List.filter_cons]
    by_cases h : t.wasDonated = true
    · simp [h]
      omega
    · rw [Bool.not_eq_true] at h
      simp [h]

/-! ## Claim theorems -/

/-- Claim C1: in AllocLarge, after the filler, lifetime allocator and
existing regions all miss (and the request is not an exact huge-page
multiple), the router serves raw huge pages with lifetime tracking
exactly when donated (abandoned_pages + slack under
use_huge_region_more_often, else slack) is below 64 MiB in pages, or
when slack < small with use_huge_region_more_often off, or when region
creation fails; only otherwise does it serve from a new region. -/
theorem claim_C1_allocLarge_router
    (n : Nat) (useHRMO : Bool) (abandonedPages slack small : Nat)
    (addRegionOk : Bool)
    (hexact : hlInPages (hlFromPages n) ≠ n) :
    (allocLargeRoute n false false false useHRMO abandonedPages slack small
        addRegionOk = LargeRoute.rawWithLifetime ↔
      ((if useHRMO then abandonedPages + slack else slack) <
          hlInPages (hlFromBytes (64 * 1024 * 1024)) ∨
        (slack < small ∧ useHRMO = false) ∨ addRegionOk = false)) ∧
    (allocLargeRoute n false false false useHRMO abandonedPages slack small
        addRegionOk = LargeRoute.fromNewRegion ↔
      ¬((if useHRMO then abandonedPages + slack else slack) <
          hlInPages (hlFromBytes (64 * 1024 * 1024)) ∨
        (slack < small ∧ useHRMO = false) ∨ addRegionOk = false)) := by
  unfold allocLargeRoute donatedThresholdPages
  rw [if_neg hexact]
  simp only [Bool.and_false, Bool.false_eq_true, if_false]
  by_cases h1 : (if useHRMO then abandonedPages + slack else slack) <
      hlInPages (hlFromBytes (64 * 1024 * 1024))
  · rw [if_pos h1]
    constructor
    · constructor
      · intro _
        exact Or.inl h1
      · intro _
        rfl
    · constructor
      · intro hc
        cases hc
      · intro hc
        exact absurd (Or.inl h1) hc
  · rw [if_neg h1]
    by_cases h2 : slack < small ∧ useHRMO = false
    · have hb : (decide (slack < small) && !useHRMO) = true := by
        simp [h2.1, h2.2]
      rw [if_pos hb]
      constructor
      · constructor
        · intro _
          exact Or.inr (Or.inl h2)
        · intro _
          rfl
      · constructor
        · intro hc
          cases hc
        · intro hc
          exact absurd (Or.inr (Or.inl h2)) hc
    · have hb : ¬((decide (slack < small) && !useHRMO) = true) := by
        intro hc
        rw [Bool.and_eq_true, decide_eq_true_iff, Bool.not_eq_eq_eq_not,
          Bool.not_true] at hc
        exact h2 hc
      rw [if_neg hb]
      by_cases h3 : addRegionOk = false
      · have hb3 : (!addRegionOk) = true := by
          rw [h3]
          rfl
        rw [if_pos hb3]
        constructor
        · constructor
          · intro _
            exact Or.inr (Or.inr h3)
          · intro _
            rfl
        · constructor
          · intro hc
            cases hc
          · intro hc
            exact absurd (Or.inr (Or.inr h3)) hc
      · have hb3 : ¬((!addRegionOk) = true) := by
          intro hc
          rw [Bool.not_eq_eq_eq_not, Bool.not_true] at hc
          exact h3 hc
        rw [if_neg hb3]
        constructor
        · constructor
          · intro hc
            cases hc
          · intro hc
            rcases hc with hc | hc | hc
            · exact absurd hc h1
            · exact absurd hc h2
            · exact absurd hc h3
        · constructor
          · intro _ hc
            rcases hc with hc | hc | hc
            · exact absurd hc h1
            · exact absurd hc h2
            · exact absurd hc h3
          · intro _
            rfl

/-- Witness for claim C1 at a concrete input. -/
theorem claim_C1_witness :
    (allocLargeRoute 300 false false false false 0 0 0 true =
        LargeRoute.rawWithLifetime ↔
      ((if false then 0 + 0 else 0) <
          hlInPages (hlFromBytes (64 * 1024 * 1024)) ∨
        (0 < 0 ∧ false = false) ∨ true = false)) ∧
    (allocLargeRoute 300 false false false false 0 0 0 true =
        LargeRoute.fromNewRegion ↔
      ¬((if false then 0 + 0 else 0) <
          hlInPages (hlFromBytes (64 * 1024 * 1024)) ∨
        (0 < 0 ∧ false = false) ∨ true = false)) :=
  claim_C1_allocLarge_router 300 false 0 0 0 true (by decide)

/-- Claim C3 counterexample: AllocAndContribute with donated = true and
44 initially-used pages records abandoned_count = 44, not K - 44. -/
theorem claim_C3_counterexample :
    ¬ ((allocAndContribute 1 44 true).abandonedCount =
        kPagesPerHugePage - 44) := by decide

/-- Claim C3 (amended): when a PageTracker is contributed donated with
initial_used pages allocated for the donor, its abandoned_count is set
to initial_used (= K - slack); in particular the tracker created by the
slack branch of AllocRawHugepages carries
abandoned_count = K - slack. -/
theorem claim_C3_abandoned_count :
    (∀ p m : Nat, (allocAndContribute p m true).abandonedCount = m) ∧
    (∀ st st' n, allocRawHugepages st n = some st' →
      hlInPages (hlFromPages n) - n ≠ 0 →
      ∃ t ts, st'.trackers = t :: ts ∧
        t.abandonedCount =
          kPagesPerHugePage - (hlInPages (hlFromPages n) - n)) := by
  constructor
  · intro p m
    rfl
  · intro st st' n h hsl
    unfold allocRawHugepages at h
    by_cases hn : n = 0
    · rw [if_pos hn] at h
      cases h
    rw [if_neg hn, if_neg hsl] at h
    injection h with h
    subst h
    exact ⟨_, st.trackers, rfl, rfl⟩

/-- Witness for claim C3's amended theorem at a concrete input. -/
theorem claim_C3_witness :
    (allocAndContribute 1 44 true).abandonedCount = 44 ∧
    (∃ t ts, ((allocRawHugepages initState 300).getD initState).trackers =
        t :: ts ∧
      t.abandonedCount =
        kPagesPerHugePage - (hlInPages (hlFromPages 300) - 300)) :=
  ⟨claim_C3_abandoned_count.1 1 44,
    claim_C3_abandoned_count.2 initState _ 300 rfl (by decide)⟩

/-- Claim C7: LockAndAlloc dispatches Small for n up to K/2, Large up
to the huge-region size, Enormous beyond; AllocEnormous is
AllocRawHugepages; and an exact huge-page multiple in AllocLarge goes
straight to raw huge pages regardless of the filler, lifetime and
region oracles. -/
theorem claim_C7_dispatch (regionSizeInPages n : Nat) (hn : 0 < n) :
    (lockAndAllocClass regionSizeInPages n = SizeClass.small ↔
      n ≤ kPagesPerHugePage / 2) ∧
    (lockAndAllocClass regionSizeInPages n = SizeClass.large ↔
      (kPagesPerHugePage / 2 < n ∧ n ≤ regionSizeInPages)) ∧
    (lockAndAllocClass regionSizeInPages n = SizeClass.enormous ↔
      (kPagesPerHugePage / 2 < n ∧ regionSizeInPages < n)) ∧
    allocEnormous = allocRawHugepages ∧
    (∀ fh lh rh u ab sl sm ar, hlInPages (hlFromPages n) = n →
      allocLargeRoute n fh lh rh u ab sl sm ar = LargeRoute.rawExact) := by
  refine ⟨?_, ?_, ?_, rfl, ?_⟩
  · unfold lockAndAllocClass
    by_cases h1 : n ≤ kPagesPerHugePage / 2
    · rw [if_pos h1]
      simp [h1]
    · rw [if_neg h1]
      by_cases h2 : n ≤ regionSizeInPages
      · rw [if_pos h2]
        simp [h1]
      · rw [if_neg h2]
        simp [h1]
  · unfold lockAndAllocClass
    by_cases h1 : n ≤ kPagesPerHugePage / 2
    · rw [if_pos h1]
      simp
      omega
    · rw [if_neg h1]
      by_cases h2 : n ≤ regionSizeInPages
      · rw [if_pos h2]
        simp
        omega
      · rw [if_neg h2]
        simp
        omega
  · unfold lockAndAllocClass
    by_cases h1 : n ≤ kPagesPerHugePage / 2
    · rw [if_pos h1]
      simp
      omega
    · rw [if_neg h1]
      by_cases h2 : n ≤ regionSizeInPages
      · rw [if_pos h2]
        simp
        omega
      · rw [if_neg h2]
        simp
        omega
  · intro fh lh rh u ab sl sm ar hdvd
    unfold allocLargeRoute
    rw [if_pos hdvd]

/-- Witness for claim C7 at a concrete input. -/
theorem claim_C7_witness :
    (lockAndAllocClass 131072 100 = SizeClass.small ↔
      100 ≤ kPagesPerHugePage / 2) ∧
    (lockAndAllocClass 131072 100 = SizeClass.large ↔
      (kPagesPerHugePage / 2 < 100 ∧ 100 ≤ 131072)) ∧
    (lockAndAllocClass 131072 100 = SizeClass.enormous ↔
      (kPagesPerHugePage / 2 < 100 ∧ 131072 < 100)) ∧
    allocEnormous = allocRawHugepages ∧
    (∀ fh lh rh u ab sl sm ar, hlInPages (hlFromPages 100) = 100 →
      allocLargeRoute 100 fh lh rh u ab sl sm ar = LargeRoute.rawExact) :=
  claim_C7_dispatch 131072 100 (by decide)

/-- Claim C8: New backs a returned span over its full byte range after
the lock is dropped exactly when the placement reported from_released;
otherwise no backing happens. -/
theorem claim_C8_backing (n : Nat) (s : SpanRange) (fromReleased : Bool) :
    (newEventTrace n (some s) true =
      [NewEvent.lockAcquire, NewEvent.allocUnderLock n,
        NewEvent.lockRelease,
        NewEvent.backRange (s.startPage * kPageSize)
          (s.numPages * kPageSize)]) ∧
    (newEventTrace n (some s) false =
      [NewEvent.lockAcquire, NewEvent.allocUnderLock n,
        NewEvent.lockRelease]) ∧
    (newEventTrace n none fromReleased =
      [NewEvent.lockAcquire, NewEvent.allocUnderLock n,
        NewEvent.lockRelease]) := by
  refine ⟨rfl, rfl, ?_⟩
  unfold newEventTrace
  simp

/-- Claim C9: NewAligned forwards to New for align at most one page,
goes straight to AllocRawHugepages for larger align up to K (so the
span starts on a huge-page boundary and any power-of-two alignment up
to K holds), and aborts beyond K. -/
theorem claim_C9_new_aligned (align : Nat) :
    (align ≤ 1 → newAlignedRoute align = AlignedRoute.viaNew) ∧
    (1 < align → align ≤ kPagesPerHugePage →
      newAlignedRoute align = AlignedRoute.rawHugepages) ∧
    (kPagesPerHugePage < align →
      newAlignedRoute align = AlignedRoute.checkFail) ∧
    (∀ st st' n, allocRawHugepages st n = some st' →
      ∃ s rest, st'.spans = s :: rest ∧
        ∀ j : Nat, j ≤ 8 →
          (2 ^ j : Nat) ∣ s.firstHp * kPagesPerHugePage) := by
  refine ⟨?_, ?_, ?_, ?_⟩
  · intro h1
    unfold newAlignedRoute
    rw [if_pos h1]
  · intro h1 h2
    unfold newAlignedRoute
    rw [if_neg (by omega), if_pos h2]
  · intro h1
    unfold newAlignedRoute
    have hK : kPagesPerHugePage = 256 := rfl
    rw [if_neg (by omega), if_neg (by omega)]
  · intro st st' n h
    have hdvd : ∀ hp : Nat, ∀ j : Nat, j ≤ 8 →
        (2 ^ j : Nat) ∣ hp * kPagesPerHugePage := by
      intro hp j hj
      have h256 : (2 ^ j : Nat) ∣ kPagesPerHugePage := by
        have : (2 ^ j : Nat) ∣ 2 ^ 8 := pow_dvd_pow 2 hj
        simpa [kPagesPerHugePage] using this
      exact Dvd.dvd.mul_left h256 hp
    unfold allocRawHugepages at h
    by_cases hn : n = 0
    · rw [if_pos hn] at h
      cases h
    rw [if_neg hn] at h
    by_cases hsl : hlInPages (hlFromPages n) - n = 0
    · rw [if_pos hsl] at h
      injection h with h
      subst h
      exact ⟨_, st.spans, rfl, hdvd st.nextHp⟩
    · rw [if_neg hsl] at h
      injection h with h
      subst h
      exact ⟨_, st.spans, rfl, hdvd st.nextHp⟩

/-- Witness for claim C9 at a concrete input. -/
theorem claim_C9_witness :
    newAlignedRoute 256 = AlignedRoute.rawHugepages ∧
    (∃ s rest,
      ((allocRawHugepages initState 10).getD initState).spans = s :: rest ∧
      ∀ j : Nat, j ≤ 8 →
        (2 ^ j : Nat) ∣ s.firstHp * kPagesPerHugePage) :=
  ⟨(claim_C9_new_aligned 256).2.1 (by decide) (by decide),
    (claim_C9_new_aligned 256).2.2.2 initState _ 10 rfl⟩

/-- Claim C6: ReleaseAtLeastNPages releases from the HugeCache first;
then, only under hpaa_subrelease and while short of the target, calls
the filler's subrelease with the configured skip intervals, the
release_partial_alloc_pages parameter and hit_limit = false; then,
only under use_huge_region_more_often, releases the regions; finally
records (num_pages, released) and returns the total. -/
theorem claim_C6_release_order (cfg : ReleaseConfig) (o : ReleaseOracle)
    (numPages : Nat) :
    (releaseAtLeastNPages cfg o numPages).steps =
      [ReleaseStep.cache (hlFromPages numPages)
        (o.cacheReleaseHugePages (hlFromPages numPages))] ++
      (if cfg.hpaaSubrelease = true ∧
          hlInPages (o.cacheReleaseHugePages (hlFromPages numPages)) <
            numPages then
        [ReleaseStep.filler
          (numPages -
            hlInPages (o.cacheReleaseHugePages (hlFromPages numPages)))
          cfg.skipIntervals cfg.releasePartialAllocPages false
          (o.fillerReleasePages
            (numPages -
              hlInPages (o.cacheReleaseHugePages (hlFromPages numPages)))
            cfg.skipIntervals cfg.releasePartialAllocPages false)]
      else []) ++
      (if cfg.useHugeRegionMoreOften = true then
        [ReleaseStep.regions o.regionsReleasePages]
      else []) ∧
    (releaseAtLeastNPages cfg o numPages).released =
      hlInPages (o.cacheReleaseHugePages (hlFromPages numPages)) +
      (if cfg.hpaaSubrelease = true ∧
          hlInPages (o.cacheReleaseHugePages (hlFromPages numPages)) <
            numPages then
        o.fillerReleasePages
          (numPages -
            hlInPages (o.cacheReleaseHugePages (hlFromPages numPages)))
          cfg.skipIntervals cfg.releasePartialAllocPages false
      else 0) +
      (if cfg.useHugeRegionMoreOften = true then o.regionsReleasePages
       else 0) ∧
    (releaseAtLeastNPages cfg o numPages).recorded =
      (numPages, (releaseAtLeastNPages cfg o numPages).released) := by
  unfold releaseAtLeastNPages
  by_cases h1 : cfg.hpaaSubrelease = true <;>
    by_cases h3 : cfg.useHugeRegionMoreOften = true <;>
      by_cases h2 : hlInPages (o.cacheReleaseHugePages
        (hlFromPages numPages)) < numPages <;>
        simp [h1, h2, h3]

/-- Claim C4: over every sequence of New/Delete operations,
donated_huge_pages equals the number of live trackers that were created
donated and have not yet been emptied and reclaimed, and it never goes
negative. -/
theorem claim_C4_donated_huge_pages (ops : List Op) (st : HPAA)
    (h : run ops = some st) :
    st.donatedHugePages =
      ((st.trackers.filter (fun t => t.wasDonated)).length : Int) ∧
    0 ≤ st.donatedHugePages := by
  have hinv := inv_run h
  refine ⟨?_, ?_⟩
  · rw [hinv.donatedEq, donatedCount_eq_length]
  · rw [hinv.donatedEq]
    exact donatedCount_nonneg _

/-- Witness for claim C4 on a concrete run. -/
theorem claim_C4_witness :
    stC4demo.donatedHugePages =
      ((stC4demo.trackers.filter (fun t => t.wasDonated)).length : Int) ∧
    0 ≤ stC4demo.donatedHugePages :=
  claim_C4_donated_huge_pages [Op.allocRaw 300] stC4demo rfl

/-- Claim C5: over every sequence of New/Delete operations,
abandoned_pages equals the sum of abandoned_count over abandoned
trackers and never goes negative. -/
theorem claim_C5_abandoned_pages (ops : List Op) (st : HPAA)
    (h : run ops = some st) :
    st.abandonedPages =
      (st.trackers.map (fun t =>
        if t.abandoned then (t.abandonedCount : Int) else 0)).sum ∧
    0 ≤ st.abandonedPages := by
  have hinv := inv_run h
  refine ⟨hinv.abandonedEq, ?_⟩
  rw [hinv.abandonedEq]
  exact abandonedSum_nonneg _

/-- Witness for claim C5 on a concrete run. -/
theorem claim_C5_witness :
    stC5demo.abandonedPages =
      (stC5demo.trackers.map (fun t =>
        if t.abandoned then (t.abandonedCount : Int) else 0)).sum ∧
    0 ≤ stC5demo.abandonedPages :=
  claim_C5_abandoned_pages [Op.allocRaw 300, Op.allocFiller 1 10,
    Op.delete 0] stC5demo rfl

/-- Claim C10: whenever Delete reaches the direct-huge-page branch with
nonzero slack in a reachable state, the tracker lookup on the last huge
page of the range is non-null (the donated tail tracker is still
installed), so the dereference preceding the null check is safe and the
delete completes. -/
theorem claim_C10_tail_tracker (ops : List Op) (st : HPAA) (s : SpanRec)
    (h : run ops = some st) (hs : s ∈ st.spans)
    (hft : findTracker st.trackers s.firstHp = none)
    (hsl : hlInPages (hlFromPages s.n) - s.n ≠ 0) :
    (findTracker st.trackers (s.firstHp + hlFromPages s.n - 1)).isSome ∧
    (deleteSpan st s.sid).isSome := by
  have hinv := inv_run h
  have hkd : s.kind = SpanKind.directDonated := by
    cases hkc : s.kind with
    | filler =>
      exfalso
      obtain ⟨t0, ht0m, ht0hp⟩ := hinv.fillerTr s hs hkc
      have := findTracker_of_mem hinv.trNodup ht0m ht0hp
      rw [this] at hft
      cases hft
    | directExact =>
      exfalso
      have := hinv.exactSlack s hs hkc
      simp only [spanSlack, spanHl] at this
      omega
    | directDonated => rfl
  obtain ⟨t0, ht0m, ht0hp, ht0d, ht0a⟩ := hinv.donorTr s hs hkd
  have hfind2 : findTracker st.trackers
      (s.firstHp + hlFromPages s.n - 1) = some t0 :=
    findTracker_of_mem hinv.trNodup ht0m ht0hp
  refine ⟨by rw [hfind2]; rfl, ?_⟩
  have hfs : st.spans.find? (fun x => x.sid == s.sid) = some s :=
    find?_key_of_mem SpanRec.sid hinv.spNodup hs rfl
  unfold deleteSpan
  rw [hfs]
  simp only []
  rw [hft]
  simp only []
  rw [if_neg hsl, hfind2]
  simp only []
  by_cases hrem : t0.usedPages -
      (kPagesPerHugePage - (hlInPages (hlFromPages s.n) - s.n)) ≠ 0
  · rw [if_pos hrem]
    rfl
  · rw [if_neg hrem]
    by_cases hrel : t0.released = true
    · rw [if_pos hrel]
      rfl
    · rw [if_neg hrel]
      rfl

/-- Witness for claim C10 on a concrete reachable state. -/
theorem claim_C10_witness :
    (findTracker stC10demo.trackers
      (spanC10.firstHp + hlFromPages spanC10.n - 1)).isSome ∧
    (deleteSpan stC10demo spanC10.sid).isSome :=
  claim_C10_tail_tracker [Op.allocRaw 300] stC10demo spanC10 rfl
    (by decide) rfl (by decide)

/-- Claim C2: on Delete of a span straight from the HugeCache with
nonzero slack, when the virtual tail put does not empty the tail
tracker the released range is shortened by one huge page,
abandoned_count is added to abandoned_pages and the tracker is marked
abandoned; when it empties the tracker, donated_huge_pages is
decremented, and either (released tail) the range is shortened and the
tail goes back unbacked, or (backed tail) the tracker object is
destroyed and the tail stays in the backed range released to the
cache. -/
theorem claim_C2_delete_direct (st : HPAA) (sid : Nat) (s : SpanRec)
    (pt : Tracker)
    (hfs : st.spans.find? (fun x => x.sid == sid) = some s)
    (hft : findTracker st.trackers s.firstHp = none)
    (hn : kPagesPerHugePage ≤ s.n)
    (hsl : hlInPages (hlFromPages s.n) - s.n ≠ 0)
    (hpt : findTracker st.trackers
      (s.firstHp + hlFromPages s.n - 1) = some pt) :
    (pt.usedPages - (kPagesPerHugePage -
        (hlInPages (hlFromPages s.n) - s.n)) ≠ 0 →
      deleteSpan st sid = some { st with
        spans := st.spans.filter (fun x => x.sid != sid),
        trackers := setTracker st.trackers
          (s.firstHp + hlFromPages s.n - 1)
          { pt with
            usedPages := pt.usedPages - (kPagesPerHugePage -
              (hlInPages (hlFromPages s.n) - s.n)),
            abandoned := true },
        abandonedPages := st.abandonedPages + pt.abandonedCount,
        events := CacheEvent.releaseBacked s.firstHp
          (hlFromPages s.n - 1) :: st.events }) ∧
    (pt.usedPages - (kPagesPerHugePage -
        (hlInPages (hlFromPages s.n) - s.n)) = 0 → pt.released = true →
      deleteSpan st sid = some { st with
        spans := st.spans.filter (fun x => x.sid != sid),
        trackers := eraseTracker st.trackers
          (s.firstHp + hlFromPages s.n - 1),
        donatedHugePages := st.donatedHugePages - 1,
        events := CacheEvent.releaseBacked s.firstHp
            (hlFromPages s.n - 1) ::
          CacheEvent.releaseUnbacked pt.hp :: st.events }) ∧
    (pt.usedPages - (kPagesPerHugePage -
        (hlInPages (hlFromPages s.n) - s.n)) = 0 → pt.released = false →
      deleteSpan st sid = some { st with
        spans := st.spans.filter (fun x => x.sid != sid),
        trackers := eraseTracker st.trackers
          (s.firstHp + hlFromPages s.n - 1),
        donatedHugePages := st.donatedHugePages - 1,
        events := CacheEvent.releaseBacked s.firstHp
          (hlFromPages s.n) :: st.events }) := by
  unfold deleteSpan
  rw [hfs]
  simp only []
  rw [hft]
  simp only []
  rw [if_neg hsl, hpt]
  simp only []
  refine ⟨?_, ?_, ?_⟩
  · intro hrem
    rw [if_pos hrem]
  · intro hrem hrel
    rw [if_neg (by omega), if_pos hrel]
  · intro hrem hrel
    rw [if_neg (by omega), if_neg (by rw [hrel]; exact Bool.false_ne_true)]

/-- Witness for claim C2 on the non-emptying branch. -/
theorem claim_C2_witness :
    deleteSpan stC2demo 0 = some { stC2demo with
      spans := stC2demo.spans.filter (fun x => x.sid != 0),
      trackers := setTracker stC2demo.trackers
        (spanC2.firstHp + hlFromPages spanC2.n - 1)
        { ptC2 with
          usedPages := ptC2.usedPages - (kPagesPerHugePage -
            (hlInPages (hlFromPages spanC2.n) - spanC2.n)),
          abandoned := true },
      abandonedPages := stC2demo.abandonedPages + ptC2.abandonedCount,
      events := CacheEvent.releaseBacked spanC2.firstHp
        (hlFromPages spanC2.n - 1) :: stC2demo.events } :=
  (claim_C2_delete_direct stC2demo 0 spanC2 ptC2 rfl rfl (by decide)
    (by decide) rfl).1 (by decide)

end HPAAProof
